import Mathlib

/-!
Verification of the compression stream adapter in
src/streams/qtiocompressor.cpp (class QtIOCompressor with its zlib and
zstd backend private classes).

The adapter code is embedded faithfully, statement by statement.  The two
codec libraries themselves (zlib and zstd) are external collaborators that
are not part of the repository; they are modelled from the specification
as a byte-stuffing streaming codec that honours the same call interface
(consume input, produce bounded output, report ok / stream-end / benign
exhaustion / fatal data error).  The underlying QIODevice endpoint is also
modelled from its boundary contract in the specification.
-/

/-- Lifecycle states, mirroring the enum QtIOCompressorPrivate::State. -/
inductive CState
  | NotReadFirstByte
  | InStream
  | EndOfStream
  | NoBytesWritten
  | BytesWritten
  | Closed
  | Error
deriving DecidableEq, Repr

/-- Modelled from the spec: the underlying QIODevice endpoint (an external
collaborator), with its read / write / open / close / ungetChar surface. -/
structure Device where
  isOpen : Bool
  modeRead : Bool
  modeWrite : Bool
  openFails : Bool
  writeFails : Bool
  toRead : List UInt8
  written : List UInt8
deriving DecidableEq, Repr

/-- Endpoint read: deliver up to n of the buffered bytes. -/
def deviceRead (d : Device) (n : Nat) : List UInt8 × Device :=
  (d.toRead.take n, { d with toRead := d.toRead.drop n })

/-- Endpoint write: append the bytes, or report -1 when the endpoint fails. -/
def deviceWrite (d : Device) (bs : List UInt8) : Int × Device :=
  if d.writeFails then (-1, d)
  else ((bs.length : Int), { d with written := d.written ++ bs })

/-- Endpoint ungetChar: push one byte back so the next read returns it first. -/
def deviceUnget (d : Device) (b : UInt8) : Device :=
  { d with toRead := b :: d.toRead }

/-- Endpoint open with a read / write mode pair. -/
def deviceOpen (d : Device) (r w : Bool) : Bool × Device :=
  if d.openFails then (false, d)
  else (true, { d with isOpen := true, modeRead := r, modeWrite := w })

/-- Endpoint close. -/
def deviceClose (d : Device) : Device :=
  { d with isOpen := false, modeRead := false, modeWrite := false }

/-- Modelled from the spec: the codec container framing escapes high bytes so
that the end-of-stream marker 0xFF is unambiguous. -/
def encByte (b : UInt8) : List UInt8 :=
  if 0xFE ≤ b then [0xFE, b] else [b]

/-- Byte-stuffed body of a compressed frame. -/
def encBytes (B : List UInt8) : List UInt8 :=
  (B.map encByte).flatten

/-- Encoder-side codec state: header emitted, stream ended, input buffered by
the codec, and produced-but-not-yet-emitted output bytes. -/
structure FrameEnc where
  hdrOut : Bool
  ended : Bool
  pending : List UInt8
  carry : List UInt8
deriving DecidableEq, Repr

/-- Flush directives passed to the codec (Z_NO_FLUSH / Z_SYNC_FLUSH /
Z_FINISH, and likewise the zstd end directives). -/
inductive FlushMode
  | noFlush
  | syncFlush
  | finish
deriving DecidableEq, Repr

/-- Codec status results (Z_OK / Z_STREAM_END / Z_BUF_ERROR / Z_DATA_ERROR). -/
inductive ZStatus
  | ok
  | streamEnd
  | bufError
  | dataError
deriving DecidableEq, Repr

/-- Modelled from the spec: one call into the compression entry point of the
DEFLATE-family library (deflate), which is an external collaborator absent
from the repository.  It consumes all offered input into codec-internal
storage and, when flushing, emits the framed stream bounded by the output
capacity, reporting streamEnd once a finish flush has emitted everything. -/
def deflateStep (hdr : List UInt8) (enc : FrameEnc) (input : List UInt8)
    (outCap : Nat) (mode : FlushMode) : FrameEnc × List UInt8 × ZStatus :=
  let enc1 : FrameEnc := { enc with pending := enc.pending ++ input }
  match mode with
  | FlushMode.noFlush => (enc1, [], ZStatus.ok)
  | FlushMode.syncFlush =>
      let carry := enc1.carry ++ (if enc1.hdrOut then [] else hdr) ++ encBytes enc1.pending
      ({ enc1 with hdrOut := true, pending := [], carry := carry.drop outCap },
       carry.take outCap, ZStatus.ok)
  | FlushMode.finish =>
      let carry := enc1.carry ++ (if enc1.hdrOut then [] else hdr) ++ encBytes enc1.pending
                    ++ (if enc1.ended then [] else [0xFF])
      ({ enc1 with hdrOut := true, ended := true, pending := [], carry := carry.drop outCap },
       carry.take outCap,
       if carry.length ≤ outCap then ZStatus.streamEnd else ZStatus.ok)

/-- Decoder-side codec state: header bytes still to skip and whether an
escape byte is pending. -/
structure FrameDec where
  hdrLeft : Nat
  esc : Bool
deriving DecidableEq, Repr

/-- Modelled from the spec: the decompression entry point of the codec
library consuming a single input byte; it may produce one output byte,
signal end of frame, or reject corrupt data. -/
def inflateByte (dec : FrameDec) (b : UInt8) : FrameDec × Option UInt8 × ZStatus :=
  match dec.hdrLeft with
  | n+1 => ({ dec with hdrLeft := n }, none, ZStatus.ok)
  | 0 =>
      if dec.esc then
        if 0xFE ≤ b then ({ dec with esc := false }, some b, ZStatus.ok)
        else (dec, none, ZStatus.dataError)
      else if b = 0xFF then (dec, none, ZStatus.streamEnd)
      else if b = 0xFE then ({ dec with esc := true }, none, ZStatus.ok)
      else (dec, some b, ZStatus.ok)

/-- Reference run of the decoder over a byte list: the decoded output and the
bytes following the end-of-frame marker, or none when the frame is cut short
or corrupt. -/
def decodeRun (dec : FrameDec) : List UInt8 → Option (List UInt8 × List UInt8)
  | [] => none
  | b :: rest =>
      match inflateByte dec b with
      | (_, _, ZStatus.streamEnd) => some ([], rest)
      | (d2, some o, ZStatus.ok) =>
          (decodeRun d2 rest).map (fun p => (o :: p.1, p.2))
      | (d2, none, ZStatus.ok) => decodeRun d2 rest
      | (_, _, _) => none

/-- Container formats of the deflate backend
(QtIOCompressorZlibPrivate::StreamFormat). -/
inductive StreamFormat
  | ZlibFormat
  | GzipFormat
  | RawZipFormat
deriving DecidableEq, Repr

/-- Header byte distinguishing the three deflate container framings. -/
def fmtByte : StreamFormat → UInt8
  | StreamFormat.ZlibFormat => 0
  | StreamFormat.GzipFormat => 1
  | StreamFormat.RawZipFormat => 2

/-- Modelled from the spec: the container header the deflate codec writes,
determined by windowBits (container format) and the compression level. -/
def zlibHdr (fmt : StreamFormat) (level : Nat) : List UInt8 :=
  [fmtByte fmt, UInt8.ofNat level]

/-- Shared private state (QtIOCompressorPrivate base class): lifecycle state,
error string, device ownership flag, scratch buffer, the device, and the
codec-specific substate. -/
structure Priv (σ : Type) where
  state : CState
  errStr : String
  manageDevice : Bool
  bufSize : Nat
  buf : List UInt8
  dev : Device
  sub : σ
deriving DecidableEq, Repr

/-- Virtual backend interface of QtIOCompressorPrivate.  Looping operations
take a fuel bound and return none when it is exhausted. -/
structure Backend (σ : Type) where
  initCodec : Priv σ → Bool → Bool × Priv σ
  readData : Nat → Priv σ → Nat → Option (Int × List UInt8 × Priv σ)
  writeData : Nat → Priv σ → List UInt8 → Option (Int × Priv σ)
  finalize : Nat → Priv σ → Bool → Option (Priv σ)

/-- The QtIOCompressor facade: QIODevice open state and mode plus the
backend private state. -/
structure Adapter (σ : Type) where
  isOpen : Bool
  modeRead : Bool
  modeWrite : Bool
  priv : Priv σ
deriving DecidableEq, Repr

/-- QtIOCompressorPrivate::writeBytes: push produced bytes to the device and
flag BytesWritten; the model device never performs short writes, so the
retry loop of the source runs exactly once. -/
def writeBytes (p : Priv σ) (bs : List UInt8) : Bool × Priv σ :=
  let w := deviceWrite p.dev bs
  if w.1 = -1 then
    (false, { p with dev := w.2, errStr := "Error writing to underlying device: " })
  else
    (true, { p with dev := w.2, state := CState.BytesWritten })

/-- Codec-specific state of QtIOCompressorZlibPrivate: the z_stream encoder
and decoder state, plus next_in / avail_in as an offset into the scratch
buffer and a remaining count. -/
structure ZlibSub where
  enc : FrameEnc
  dec : FrameDec
  inOff : Nat
  inAvail : Nat
deriving DecidableEq, Repr

/-- QtIOCompressorZlibPrivate::initialize: pick the read or write state,
reset the codec, and reject an out-of-range compression level (the codec
library rejects levels above 9 with Z_STREAM_ERROR). -/
def zlibInit (fmt : StreamFormat) (level : Nat) (p : Priv ZlibSub) (read : Bool) :
    Bool × Priv ZlibSub :=
  if read then
    (true, { p with state := CState.NotReadFirstByte,
                    sub := { p.sub with dec := { hdrLeft := 2, esc := false },
                                        inOff := 0, inAvail := 0 } })
  else
    let p1 : Priv ZlibSub :=
      { p with state := CState.NoBytesWritten,
               sub := { p.sub with enc := { hdrOut := false, ended := false,
                                            pending := [], carry := [] } } }
    if level ≤ 9 then (true, p1)
    else (false, { p1 with errStr := "Internal zlib error: " })

/-- Refill step at the top of the readData loop of
QtIOCompressorZlibPrivate::readData: when avail_in is zero, pull up to
bufferSize bytes from the device into the scratch buffer; inl means the
early return 0 on a genuinely empty source while not yet in a stream. -/
def zlibRefill (p0 : Priv ZlibSub) : Sum (Priv ZlibSub) (Priv ZlibSub) :=
  if p0.sub.inAvail = 0 then
    let rd := deviceRead p0.dev p0.bufSize
    let p1 : Priv ZlibSub :=
      { p0 with dev := rd.2,
                buf := rd.1 ++ p0.buf.drop rd.1.length,
                sub := { p0.sub with inOff := 0, inAvail := rd.1.length } }
    if p1.state ≠ CState.InStream then
      if rd.1.length = 0 then Sum.inl p1
      else Sum.inr { p1 with state := CState.InStream }
    else Sum.inr p1
  else Sum.inr p0

/-- Modelled from the spec: one inflate call.  The codec consumes one byte
of the avail_in region of the scratch buffer; with no input it reports
Z_BUF_ERROR (benign exhaustion), and it never consumes past a fatal error. -/
def zlibInflateCall (junk : UInt8) (p : Priv ZlibSub) (outAvail : Nat) :
    Priv ZlibSub × Nat × Option UInt8 × ZStatus :=
  if p.sub.inAvail = 0 then (p, outAvail, none, ZStatus.bufError)
  else
    let b := p.buf.getD p.sub.inOff junk
    let consume : FrameDec → Priv ZlibSub := fun d2 =>
      { p with sub := { p.sub with dec := d2, inOff := p.sub.inOff + 1,
                                   inAvail := p.sub.inAvail - 1 } }
    match inflateByte p.sub.dec b with
    | (d2, some o, ZStatus.ok) =>
        if outAvail = 0 then (p, outAvail, none, ZStatus.bufError)
        else (consume d2, outAvail - 1, some o, ZStatus.ok)
    | (d2, none, ZStatus.ok) => (consume d2, outAvail, none, ZStatus.ok)
    | (d2, _, ZStatus.streamEnd) => (consume d2, outAvail, none, ZStatus.streamEnd)
    | (_, _, s) => (p, outAvail, none, s)

/-- The unget loop of QtIOCompressorZlibPrivate::readData, exactly as in the
source: for i = avail_in down to 0 (inclusive) push back next_in[i].  The
index i = inAvail lies one past the unconsumed data, so the first pushed
byte is whatever the scratch buffer holds there. -/
def zlibUngetLoop (buf : List UInt8) (junk : UInt8) (inOff : Nat) :
    Nat → Device → Device
  | 0, dev => deviceUnget dev (buf.getD inOff junk)
  | i+1, dev => zlibUngetLoop buf junk inOff i (deviceUnget dev (buf.getD (inOff + (i+1)) junk))

/-- The decompression loop of QtIOCompressorZlibPrivate::readData: refill when
avail_in is empty (with the empty-source early return), inflate, dispatch on
the status (fatal error sets Error and returns -1, Z_BUF_ERROR returns 0),
and loop until the output buffer is full or the stream ends; at stream end
set EndOfStream and unget the leftover raw bytes. -/
def zlibReadLoop (junk : UInt8) :
    Nat → Priv ZlibSub → Nat → Nat → List UInt8 →
    Option (Int × List UInt8 × Priv ZlibSub)
  | 0, _, _, _, _ => none
  | fuel+1, p0, maxSize, outAvail, outAcc =>
    match zlibRefill p0 with
    | Sum.inl p1 => some (0, outAcc, p1)
    | Sum.inr p1 =>
      match zlibInflateCall junk p1 outAvail with
      | (p2, _, _, ZStatus.dataError) =>
          some (-1, outAcc, { p2 with state := CState.Error,
                                      errStr := "Internal zlib error when decompressing: " })
      | (p2, _, _, ZStatus.bufError) => some (0, outAcc, p2)
      | (p2, outAvail2, produced, status) =>
          let outAcc2 := match produced with
            | some o => outAcc ++ [o]
            | none => outAcc
          if outAvail2 ≠ 0 ∧ status ≠ ZStatus.streamEnd then
            zlibReadLoop junk fuel p2 maxSize outAvail2 outAcc2
          else
            let p3 :=
              if status = ZStatus.streamEnd then
                { p2 with state := CState.EndOfStream,
                          dev := zlibUngetLoop p2.buf junk p2.sub.inOff p2.sub.inAvail p2.dev }
              else p2
            some (((maxSize - outAvail2 : Nat) : Int), outAcc2, p3)

/-- QtIOCompressorZlibPrivate::readData entry: aim the codec at the caller
buffer of maxSize bytes and run the loop. -/
def zlibReadData (junk : UInt8) (fuel : Nat) (p : Priv ZlibSub) (maxSize : Nat) :
    Option (Int × List UInt8 × Priv ZlibSub) :=
  zlibReadLoop junk fuel p maxSize maxSize []

/-- The compression loop of QtIOCompressorZlibPrivate::writeData: deflate
with Z_NO_FLUSH into the scratch buffer, push the produced bytes to the
device, and loop while the output buffer came back full; on success the
whole input was consumed and maxSize is returned. -/
def zlibWriteLoop (hdr : List UInt8) :
    Nat → Priv ZlibSub → List UInt8 → Nat → Option (Int × Priv ZlibSub)
  | 0, _, _, _ => none
  | fuel+1, p, input, maxSize =>
    match deflateStep hdr p.sub.enc input p.bufSize FlushMode.noFlush with
    | (enc2, out, status) =>
      if status ≠ ZStatus.ok then
        some (-1, { p with state := CState.Error,
                           errStr := "Internal zlib error when compressing: " })
      else
        let wb := writeBytes { p with sub := { p.sub with enc := enc2 } } out
        if wb.1 = false then some (-1, wb.2)
        else if out.length = p.bufSize then zlibWriteLoop hdr fuel wb.2 [] maxSize
        else some ((maxSize : Int), wb.2)

/-- QtIOCompressorZlibPrivate::writeData entry. -/
def zlibWriteData (hdr : List UInt8) (fuel : Nat) (p : Priv ZlibSub)
    (data : List UInt8) : Option (Int × Priv ZlibSub) :=
  zlibWriteLoop hdr fuel p data data.length

/-- QtIOCompressorZlibPrivate::flushZlib: drive deflate with the given flush
mode, pushing every produced chunk to the device; with Z_FINISH loop until
Z_STREAM_END, otherwise loop while the output buffer came back full. -/
def zlibFlushLoop (hdr : List UInt8) (mode : FlushMode) :
    Nat → Priv ZlibSub → Option (Priv ZlibSub)
  | 0, _ => none
  | fuel+1, p =>
    match deflateStep hdr p.sub.enc [] p.bufSize mode with
    | (enc2, out, status) =>
      if status ≠ ZStatus.ok ∧ status ≠ ZStatus.streamEnd then
        some { p with state := CState.Error,
                      errStr := "Internal zlib error when compressing: " }
      else
        let wb := writeBytes { p with sub := { p.sub with enc := enc2 } } out
        if wb.1 = false then some wb.2
        else if (mode = FlushMode.finish ∧ status ≠ ZStatus.streamEnd)
                ∨ (mode ≠ FlushMode.finish ∧ out.length = p.bufSize) then
          zlibFlushLoop hdr mode fuel wb.2
        else some wb.2

/-- QtIOCompressorZlibPrivate::finalize: on read tear down the decoder; on
write flush with Z_FINISH, but only when bytes were written. -/
def zlibFinalize (hdr : List UInt8) (fuel : Nat) (p : Priv ZlibSub) (read : Bool) :
    Option (Priv ZlibSub) :=
  if read then some { p with state := CState.NotReadFirstByte }
  else if p.state = CState.BytesWritten then
    zlibFlushLoop hdr FlushMode.finish fuel { p with state := CState.NoBytesWritten }
  else some p

/-- The deflate backend as the virtual interface instance. -/
def zlibBackend (fmt : StreamFormat) (level : Nat) (junk : UInt8) : Backend ZlibSub :=
  { initCodec := zlibInit fmt level
    readData := zlibReadData junk
    writeData := zlibWriteData (zlibHdr fmt level)
    finalize := zlibFinalize (zlibHdr fmt level) }

/-- Construction of a QtIOCompressor over the deflate backend: state Closed,
a scratch buffer of bufSize uninitialised bytes (modelled as junk). -/
def mkZlibAdapter (dev : Device) (bufSize : Nat) (junk : UInt8) : Adapter ZlibSub :=
  { isOpen := false, modeRead := false, modeWrite := false,
    priv := { state := CState.Closed, errStr := "", manageDevice := false,
              bufSize := bufSize, buf := List.replicate bufSize junk, dev := dev,
              sub := { enc := { hdrOut := false, ended := false, pending := [], carry := [] },
                       dec := { hdrLeft := 2, esc := false },
                       inOff := 0, inAvail := 0 } } }

/-- Status of one zstd streaming call: 0 (frame complete), an error, or a
positive hint value when more input or output room is needed. -/
inductive ZstdStatus
  | done
  | hint
  | err
deriving DecidableEq, Repr

/-- Codec-specific state of QtIOCompressorZstdPrivate: encoder and decoder
state plus the persistent zstdInBuffer position and size. -/
structure ZstdSub where
  enc : FrameEnc
  dec : FrameDec
  pos : Nat
  size : Nat
deriving DecidableEq, Repr

/-- Modelled from the spec: the recommended streaming input chunk size of
the frame codec (ZSTD_DStreamInSize), a codec constant of the external
library, kept small in the model. -/
def zstdDStreamInSize : Nat := 8

/-- Modelled from the spec: the recommended streaming output chunk size of
the frame codec (ZSTD_CStreamOutSize). -/
def zstdCStreamOutSize : Nat := 8

/-- Modelled from the spec: the one-byte header of a frame-codec stream,
recording the compression level. -/
def zstdHdr (level : Nat) : List UInt8 :=
  [UInt8.ofNat level]

/-- QtIOCompressorZstdPrivate::initialize: without the zstd library it fails
with the descriptive stub message; with it, it creates the codec stream,
raises the buffer size to the recommended chunk size, and allocates the
scratch buffer.  Note that unlike the zlib backend it never touches the
lifecycle state. -/
def zstdInit (withZstd : Bool) (junk : UInt8) (p : Priv ZstdSub) (read : Bool) :
    Bool × Priv ZstdSub :=
  if withZstd then
    if read then
      let bs2 := max zstdDStreamInSize p.bufSize
      (true, { p with bufSize := bs2, buf := List.replicate bs2 junk,
                      sub := { p.sub with dec := { hdrLeft := 1, esc := false },
                                          pos := 0, size := 0 } })
    else
      let bs2 := max zstdCStreamOutSize p.bufSize
      (true, { p with bufSize := bs2, buf := List.replicate bs2 junk,
                      sub := { p.sub with enc := { hdrOut := false, ended := false,
                                                   pending := [], carry := [] } } })
  else
    (false, { p with errStr := "this build doesn't ship zstd support" })

/-- Refill step at the top of QtIOCompressorZstdPrivate::readData: when the
input buffer is exhausted pull up to bufferSize bytes from the device; inl
is the early return 0 on an empty source while not yet in a stream. -/
def zstdRefill (p0 : Priv ZstdSub) : Sum (Priv ZstdSub) (Priv ZstdSub) :=
  if p0.sub.size ≤ p0.sub.pos then
    let rd := deviceRead p0.dev p0.bufSize
    let p1 : Priv ZstdSub :=
      { p0 with dev := rd.2,
                buf := rd.1 ++ p0.buf.drop rd.1.length,
                sub := { p0.sub with pos := 0, size := rd.1.length } }
    if p1.state ≠ CState.InStream then
      if rd.1.length = 0 then Sum.inl p1
      else Sum.inr { p1 with state := CState.InStream }
    else Sum.inr p1
  else Sum.inr p0

/-- Modelled from the spec: one ZSTD_decompressStream call.  The codec
consumes one available byte; with no input (or no output room for a
produced byte) it makes no progress and returns a positive hint, it returns
0 exactly when the frame end was consumed, and it rejects corrupt data. -/
def zstdDecompressCall (junk : UInt8) (p : Priv ZstdSub) (outPos outSize : Nat) :
    Priv ZstdSub × Nat × Option UInt8 × ZstdStatus :=
  if p.sub.size ≤ p.sub.pos then (p, outPos, none, ZstdStatus.hint)
  else
    let b := p.buf.getD p.sub.pos junk
    let consume : FrameDec → Priv ZstdSub := fun d2 =>
      { p with sub := { p.sub with dec := d2, pos := p.sub.pos + 1 } }
    match inflateByte p.sub.dec b with
    | (d2, some o, ZStatus.ok) =>
        if outSize ≤ outPos then (p, outPos, none, ZstdStatus.hint)
        else (consume d2, outPos + 1, some o, ZstdStatus.hint)
    | (d2, none, ZStatus.ok) => (consume d2, outPos, none, ZstdStatus.hint)
    | (d2, _, ZStatus.streamEnd) => (consume d2, outPos, none, ZstdStatus.done)
    | (_, _, _) => (p, outPos, none, ZstdStatus.err)

/-- The unget loop of QtIOCompressorZstdPrivate::readData, exactly as in the
source: while pos < size push back src[--size]; it restores exactly the
unconsumed bytes. -/
def zstdUngetLoop (buf : List UInt8) (junk : UInt8) (pos : Nat) :
    Nat → Device → Device
  | 0, dev => dev
  | size+1, dev =>
      if pos < size+1 then
        zstdUngetLoop buf junk pos size (deviceUnget dev (buf.getD size junk))
      else dev

/-- The decompression loop of QtIOCompressorZstdPrivate::readData: refill
when the input buffer is exhausted (with the empty-source early return),
decompress, break with EndOfStream and unget leftovers on status 0, return
-1 on a codec error (the source does not set the Error state here), and
otherwise loop while the caller buffer has room. -/
def zstdReadLoop (junk : UInt8) :
    Nat → Priv ZstdSub → Nat → Nat → List UInt8 →
    Option (Int × List UInt8 × Priv ZstdSub)
  | 0, _, _, _, _ => none
  | fuel+1, p0, maxSize, outPos, outAcc =>
    match zstdRefill p0 with
    | Sum.inl p1 => some (0, outAcc, p1)
    | Sum.inr p1 =>
      match zstdDecompressCall junk p1 outPos maxSize with
      | (p2, outPos2, _, ZstdStatus.done) =>
          let p3 : Priv ZstdSub :=
            { p2 with state := CState.EndOfStream,
                      sub := { p2.sub with size := min p2.sub.pos p2.sub.size },
                      dev := zstdUngetLoop p2.buf junk p2.sub.pos p2.sub.size p2.dev }
          some ((outPos2 : Int), outAcc, p3)
      | (p2, _, _, ZstdStatus.err) =>
          some (-1, outAcc, { p2 with errStr := "Internal zstd error when decompressing: " })
      | (p2, outPos2, produced, ZstdStatus.hint) =>
          let outAcc2 := match produced with
            | some o => outAcc ++ [o]
            | none => outAcc
          if outPos2 < maxSize then zstdReadLoop junk fuel p2 maxSize outPos2 outAcc2
          else some ((outPos2 : Int), outAcc2, p2)

/-- QtIOCompressorZstdPrivate::readData entry: the stub build returns -1
without touching anything; otherwise run the loop. -/
def zstdReadData (withZstd : Bool) (junk : UInt8) (fuel : Nat) (p : Priv ZstdSub)
    (maxSize : Nat) : Option (Int × List UInt8 × Priv ZstdSub) :=
  if withZstd then zstdReadLoop junk fuel p maxSize 0 []
  else some (-1, [], p)

/-- Modelled from the spec: one ZSTD_compressStream2 call; the codec
consumes all offered input, and on a flushing directive emits the framed
stream bounded by the output capacity, returning as status the number of
bytes still to be flushed (0 once complete). -/
def zstdCompressStep (hdr : List UInt8) (enc : FrameEnc) (input : List UInt8)
    (outCap : Nat) (mode : FlushMode) : FrameEnc × List UInt8 × Nat :=
  let enc1 : FrameEnc := { enc with pending := enc.pending ++ input }
  match mode with
  | FlushMode.noFlush => (enc1, [], 1)
  | FlushMode.syncFlush =>
      let carry := enc1.carry ++ (if enc1.hdrOut then [] else hdr) ++ encBytes enc1.pending
      ({ enc1 with hdrOut := true, pending := [], carry := carry.drop outCap },
       carry.take outCap, carry.length - outCap)
  | FlushMode.finish =>
      let carry := enc1.carry ++ (if enc1.hdrOut then [] else hdr) ++ encBytes enc1.pending
                    ++ (if enc1.ended then [] else [0xFF])
      ({ enc1 with hdrOut := true, ended := true, pending := [], carry := carry.drop outCap },
       carry.take outCap, carry.length - outCap)

/-- The compression loop of QtIOCompressorZstdPrivate::writeData: feed the
caller bytes with ZSTD_e_continue, push produced bytes to the device, loop
until the local input buffer is consumed (the model codec consumes it in
the first call), then flag BytesWritten and return maxSize. -/
def zstdWriteLoop (hdr : List UInt8) :
    Nat → Priv ZstdSub → List UInt8 → Nat → Option (Int × Priv ZstdSub)
  | 0, _, _, _ => none
  | _fuel+1, p, input, maxSize =>
    match zstdCompressStep hdr p.sub.enc input p.bufSize FlushMode.noFlush with
    | (enc2, out, _) =>
      let wb := writeBytes { p with sub := { p.sub with enc := enc2 } } out
      if wb.1 = false then some (-1, wb.2)
      else some ((maxSize : Int), { wb.2 with state := CState.BytesWritten })

/-- QtIOCompressorZstdPrivate::writeData entry: the stub build returns -1
without attempting any codec work. -/
def zstdWriteData (withZstd : Bool) (hdr : List UInt8) (fuel : Nat) (p : Priv ZstdSub)
    (data : List UInt8) : Option (Int × Priv ZstdSub) :=
  if withZstd then zstdWriteLoop hdr fuel p data data.length
  else some (-1, p)

/-- QtIOCompressorZstdPrivate::flushZstd: drive the codec with the given end
directive, pushing each produced chunk to the device, until it reports 0
(nothing left to flush). -/
def zstdFlushLoop (hdr : List UInt8) (mode : FlushMode) :
    Nat → Priv ZstdSub → Option (Priv ZstdSub)
  | 0, _ => none
  | fuel+1, p =>
    match zstdCompressStep hdr p.sub.enc [] p.bufSize mode with
    | (enc2, out, status) =>
      let wb := writeBytes { p with sub := { p.sub with enc := enc2 } } out
      if wb.1 = false then some wb.2
      else if status ≠ 0 then zstdFlushLoop hdr mode fuel wb.2
      else some wb.2

/-- QtIOCompressorZstdPrivate::finalize: read tears down the decoder and
clears zstdInBuffer; write flushes with ZSTD_e_end when bytes were written;
the stub build does nothing. -/
def zstdFinalize (withZstd : Bool) (hdr : List UInt8) (fuel : Nat) (p : Priv ZstdSub)
    (read : Bool) : Option (Priv ZstdSub) :=
  if withZstd then
    if read then
      some { p with state := CState.NotReadFirstByte,
                    sub := { p.sub with pos := 0, size := 0 } }
    else if p.state = CState.BytesWritten then
      (zstdFlushLoop hdr FlushMode.finish fuel
        { p with state := CState.NoBytesWritten }).map
        (fun p2 => { p2 with sub := { p2.sub with pos := 0, size := 0 } })
    else some { p with sub := { p.sub with pos := 0, size := 0 } }
  else some p

/-- The frame-streaming backend as the virtual interface instance;
withZstd mirrors the WITH_XC_ZSTD build flag. -/
def zstdBackend (withZstd : Bool) (level : Nat) (junk : UInt8) : Backend ZstdSub :=
  { initCodec := zstdInit withZstd junk
    readData := zstdReadData withZstd junk
    writeData := zstdWriteData withZstd (zstdHdr level)
    finalize := zstdFinalize withZstd (zstdHdr level) }

/-- Construction of a QtIOCompressor over the frame-streaming backend: no
buffer yet (allocated in initialize); in a build without the library the
constructor immediately sets the Error state. -/
def mkZstdAdapter (withZstd : Bool) (dev : Device) (bufSize : Nat) : Adapter ZstdSub :=
  { isOpen := false, modeRead := false, modeWrite := false,
    priv := { state := if withZstd then CState.Closed else CState.Error,
              errStr := "", manageDevice := false,
              bufSize := bufSize, buf := [], dev := dev,
              sub := { enc := { hdrOut := false, ended := false, pending := [], carry := [] },
                       dec := { hdrLeft := 1, esc := false },
                       pos := 0, size := 0 } } }

/-- Tail of QtIOCompressor::open shared by both device branches: run
Backend initialize and, on success, complete QIODevice::open. -/
def compOpenInit (B : Backend σ) (a1 : Adapter σ) (r w : Bool) : Bool × Adapter σ :=
  let ir := B.initCodec a1.priv r
  if ir.1 = false then (false, { a1 with priv := ir.2 })
  else (true, { a1 with priv := ir.2, isOpen := true, modeRead := r, modeWrite := w })

/-- QtIOCompressor::open: reject when already open or when the mode is not
exactly one of ReadOnly / WriteOnly; validate or open the device, recording
whether this adapter manages it; then initialize the backend. -/
def compOpen (B : Backend σ) (a : Adapter σ) (r w : Bool) : Bool × Adapter σ :=
  if a.isOpen then (false, a)
  else if (r ∧ w) ∨ (¬r ∧ ¬w) then (false, a)
  else if a.priv.dev.isOpen then
    let a1 : Adapter σ := { a with priv := { a.priv with manageDevice := false } }
    if r ∧ ¬a.priv.dev.modeRead then (false, a1)
    else if w ∧ ¬a.priv.dev.modeWrite then (false, a1)
    else compOpenInit B a1 r w
  else
    let dres := deviceOpen a.priv.dev r w
    let a1 : Adapter σ := { a with priv := { a.priv with manageDevice := true, dev := dres.2 } }
    if dres.1 = false then
      (false, { a1 with priv := { a1.priv with errStr := "Error opening underlying device: " } })
    else compOpenInit B a1 r w

/-- QtIOCompressor::close: a no-op when not open; otherwise finalize the
backend (flushing in write mode), close the device only when this adapter
opened it, and leave the QIODevice closed. -/
def compClose (B : Backend σ) (fuel : Nat) (a : Adapter σ) : Option (Adapter σ) :=
  if a.isOpen = false then some a
  else
    (B.finalize fuel a.priv a.modeRead).map (fun p1 =>
      let p2 := if p1.manageDevice then { p1 with dev := deviceClose p1.dev } else p1
      { a with priv := p2, isOpen := false, modeRead := false, modeWrite := false })

/-- QtIOCompressor::readData: return 0 at EndOfStream, -1 in the Error
state, and otherwise delegate to the backend. -/
def compReadData (B : Backend σ) (fuel : Nat) (a : Adapter σ) (maxSize : Nat) :
    Option (Int × List UInt8 × Adapter σ) :=
  if a.priv.state = CState.EndOfStream then some (0, [], a)
  else if a.priv.state = CState.Error then some (-1, [], a)
  else (B.readData fuel a.priv maxSize).map (fun r => (r.1, r.2.1, { a with priv := r.2.2 }))

/-- QtIOCompressor::writeData: a length below 1 is a no-op returning 0
(checked before anything else); -1 in the Error state; otherwise delegate
the len bytes at data to the backend. -/
def compWriteData (B : Backend σ) (fuel : Nat) (a : Adapter σ) (data : List UInt8)
    (len : Int) : Option (Int × Adapter σ) :=
  if len < 1 then some (0, a)
  else if a.priv.state = CState.Error then some (-1, a)
  else (B.writeData fuel a.priv (data.take len.toNat)).map
    (fun r => (r.1, { a with priv := r.2 }))

/-- A closed, empty, fault-free endpoint. -/
def freshDevice : Device :=
  { isOpen := false, modeRead := false, modeWrite := false,
    openFails := false, writeFails := false, toRead := [], written := [] }

/-- Caller configuration: which codec backend, its container format and
compression level (FormatSpec of the spec). -/
inductive CodecCfg
  | deflate (fmt : StreamFormat) (level : Nat)
  | zstd (level : Nat)
deriving DecidableEq, Repr

/-- Supported configurations: deflate levels 0..9; frame-codec levels
1..19. -/
def CodecCfg.supported : CodecCfg → Prop
  | CodecCfg.deflate _ level => level ≤ 9
  | CodecCfg.zstd level => 1 ≤ level ∧ level ≤ 19

/-- Write B through an open-for-write deflate adapter over a fresh device
and close it, yielding the bytes the endpoint received. -/
def zlibCompress (fmt : StreamFormat) (level : Nat) (bufSize : Nat) (junk : UInt8)
    (B : List UInt8) : Option (List UInt8) :=
  let bk := zlibBackend fmt level junk
  let o := compOpen bk (mkZlibAdapter freshDevice bufSize junk) false true
  if o.1 = false then none
  else (compWriteData bk 4 o.2 B (B.length : Int)).bind (fun w =>
    if w.1 = -1 then none
    else (compClose bk (2 * B.length + 8) w.2).map (fun a2 => a2.priv.dev.written))

/-- Read back bytes through a fresh open-for-read deflate adapter with a
caller buffer of maxLen bytes. -/
def zlibDecompress (fmt : StreamFormat) (level : Nat) (bufSize : Nat) (junk : UInt8)
    (bytes : List UInt8) (maxLen : Nat) : Option (List UInt8) :=
  let bk := zlibBackend fmt level junk
  let o := compOpen bk (mkZlibAdapter { freshDevice with toRead := bytes } bufSize junk) true false
  if o.1 = false then none
  else (compReadData bk (bytes.length + 2) o.2 maxLen).bind (fun r =>
    if 0 ≤ r.1 then some (r.2.1.take r.1.toNat) else none)

/-- Write B through an open-for-write zstd adapter over a fresh device and
close it. -/
def zstdCompress (level : Nat) (bufSize : Nat) (junk : UInt8)
    (B : List UInt8) : Option (List UInt8) :=
  let bk := zstdBackend true level junk
  let o := compOpen bk (mkZstdAdapter true freshDevice bufSize) false true
  if o.1 = false then none
  else (compWriteData bk 4 o.2 B (B.length : Int)).bind (fun w =>
    if w.1 = -1 then none
    else (compClose bk (2 * B.length + 8) w.2).map (fun a2 => a2.priv.dev.written))

/-- Read back bytes through a fresh open-for-read zstd adapter. -/
def zstdDecompress (level : Nat) (bufSize : Nat) (junk : UInt8)
    (bytes : List UInt8) (maxLen : Nat) : Option (List UInt8) :=
  let bk := zstdBackend true level junk
  let o := compOpen bk (mkZstdAdapter true { freshDevice with toRead := bytes } bufSize) true false
  if o.1 = false then none
  else (compReadData bk (bytes.length + 2) o.2 maxLen).bind (fun r =>
    if 0 ≤ r.1 then some (r.2.1.take r.1.toNat) else none)

/-- Full adapter round trip for a configuration: compress B, then read it
back with a caller buffer one byte larger than B. -/
def roundTrip (cfg : CodecCfg) (bufSize : Nat) (junk : UInt8) (B : List UInt8) :
    Option (List UInt8) :=
  match cfg with
  | CodecCfg.deflate fmt level =>
      (zlibCompress fmt level bufSize junk B).bind
        (fun w => zlibDecompress fmt level bufSize junk w (B.length + 1))
  | CodecCfg.zstd level =>
      (zstdCompress level bufSize junk B).bind
        (fun w => zstdDecompress level bufSize junk w (B.length + 1))

/-- Endpoint carrying one deflate frame for the byte 0x01 followed by one
extra byte 0x42 (the start of whatever comes after the stream). -/
def c2Device : Device := { freshDevice with toRead := [0x00, 0x06, 0x01, 0xFF, 0x42] }

/-- Endpoint carrying a corrupt zstd stream: header byte then an invalid
escape sequence. -/
def c3Device : Device := { freshDevice with toRead := [0x05, 0xFE, 0x00] }

/-- A zstd read session mid-stream whose endpoint has momentarily run dry. -/
def c4Stuck : Priv ZstdSub :=
  { state := CState.InStream, errStr := "", manageDevice := true, bufSize := 8,
    buf := List.replicate 8 0xAA,
    dev := { freshDevice with isOpen := true, modeRead := true },
    sub := { enc := { hdrOut := false, ended := false, pending := [], carry := [] },
             dec := { hdrLeft := 0, esc := false }, pos := 0, size := 0 } }

/-- A concrete adapter sitting in the Error state mid-session. -/
def c5ErrAdapter : Adapter ZlibSub :=
  { mkZlibAdapter { freshDevice with isOpen := true, modeWrite := true } 1 0xAA with
    isOpen := true, modeWrite := true,
    priv := { (mkZlibAdapter { freshDevice with isOpen := true, modeWrite := true } 1 0xAA).priv
              with state := CState.Error } }

/-- A deflate backend instance for concrete close runs. -/
def c7bk : Backend ZlibSub := zlibBackend StreamFormat.ZlibFormat 6 0xAA

/-- A freshly opened write adapter over a device it does not manage. -/
def c7aW : Adapter ZlibSub :=
  (compOpen c7bk (mkZlibAdapter { freshDevice with isOpen := true, modeWrite := true } 2 0xAA)
    false true).2

/-- The adapter after one close. -/
def c7a1 : Adapter ZlibSub := (compClose c7bk 1 c7aW).getD c7aW

/-- A freshly opened deflate write adapter for the concrete write run. -/
def c10aW : Adapter ZlibSub :=
  (compOpen (zlibBackend StreamFormat.ZlibFormat 6 0xAA)
    (mkZlibAdapter { freshDevice with isOpen := true, modeWrite := true } 2 0xAA)
    false true).2

/-- Result of writing one byte through it. -/
def c10res : Option (Int × Adapter ZlibSub) :=
  compWriteData (zlibBackend StreamFormat.ZlibFormat 6 0xAA) 2 c10aW [0x01] 1

/-! Codec model lemmas feeding the round-trip proof. -/

theorem encBytes_nil : encBytes [] = [] := rfl

theorem encBytes_cons (b : UInt8) (B : List UInt8) :
    encBytes (b :: B) = encByte b ++ encBytes B := by
  simp [encBytes]

theorem encBytes_length_le : ∀ B : List UInt8, (encBytes B).length ≤ 2 * B.length := by
  intro B
  induction B with
  | nil => simp [encBytes]
  | cons b B ih =>
      rw [encBytes_cons]
      simp only [List.length_append, List.length_cons]
      have hb : (encByte b).length ≤ 2 := by
        simp only [encByte]; split <;> simp
      omega

/-- Decoding consumes the byte-stuffed body and stops exactly at the end
marker, returning the original bytes and the trailing leftovers. -/
theorem decodeRun_enc : ∀ (B rest : List UInt8),
    decodeRun { hdrLeft := 0, esc := false } (encBytes B ++ 0xFF :: rest)
      = some (B, rest) := by
  intro B
  induction B with
  | nil =>
      intro rest
      simp [encBytes, decodeRun, inflateByte]
  | cons b B ih =>
      intro rest
      rw [encBytes_cons]
      by_cases hb : (0xFE : UInt8) ≤ b
      · have h1 : encByte b = [0xFE, b] := by simp [encByte, hb]
        rw [h1]
        simp only [List.cons_append, List.nil_append]
        have e1 : inflateByte { hdrLeft := 0, esc := false } 0xFE
            = ({ hdrLeft := 0, esc := true }, none, ZStatus.ok) := by decide
        have e2 : inflateByte { hdrLeft := 0, esc := true } b
            = ({ hdrLeft := 0, esc := false }, some b, ZStatus.ok) := by
          simp [inflateByte, hb]
        simp only [decodeRun, e1, e2]
        simp [ih rest]
      · have h1 : encByte b = [b] := by simp [encByte, hb]
        have h2 : ¬ b = 0xFF := fun h => hb (by subst h; decide)
        have h3 : ¬ b = 0xFE := fun h => hb (by subst h; decide)
        rw [h1]
        simp only [List.cons_append, List.nil_append]
        have e3 : inflateByte { hdrLeft := 0, esc := false } b
            = ({ hdrLeft := 0, esc := false }, some b, ZStatus.ok) := by
          simp [inflateByte, h2, h3]
        simp only [decodeRun, e3]
        simp [ih rest]

/-- The decoder skips exactly hdrLeft header bytes first. -/
theorem decodeRun_hdr : ∀ (hdrBytes : List UInt8) (es : Bool) (tail : List UInt8),
    decodeRun { hdrLeft := hdrBytes.length, esc := es } (hdrBytes ++ tail)
      = decodeRun { hdrLeft := 0, esc := es } tail := by
  intro hdrBytes
  induction hdrBytes with
  | nil => intro es tail; simp
  | cons h hs ih =>
      intro es tail
      simp only [List.cons_append, List.length_cons]
      simp only [decodeRun, inflateByte]
      exact ih es tail

/-- writeBytes on a fault-free device: append and flag BytesWritten. -/
theorem writeBytes_ok (σ : Type) (p : Priv σ) (out : List UInt8)
    (h : p.dev.writeFails = false) :
    writeBytes p out
      = (true, { p with dev := { p.dev with written := p.dev.written ++ out },
                        state := CState.BytesWritten }) := by
  have hne : ((out.length : Nat) : Int) ≠ -1 := by omega
  simp [writeBytes, deviceWrite, h, hne]

/-- deflate finish step on a fully started encoder just drains the carry. -/
theorem deflateStep_drain (hdr : List UInt8) (carry : List UInt8) (bs : Nat) :
    deflateStep hdr { hdrOut := true, ended := true, pending := [], carry := carry }
        [] bs FlushMode.finish
      = ({ hdrOut := true, ended := true, pending := [], carry := carry.drop bs },
         carry.take bs,
         if carry.length ≤ bs then ZStatus.streamEnd else ZStatus.ok) := by
  simp [deflateStep, encBytes_nil]

/-- deflate finish step on a fresh encoder emits the whole frame. -/
theorem deflateStep_first (hdr : List UInt8) (pending : List UInt8) (bs : Nat) :
    deflateStep hdr { hdrOut := false, ended := false, pending := pending, carry := [] }
        [] bs FlushMode.finish
      = ({ hdrOut := true, ended := true, pending := [],
           carry := (hdr ++ encBytes pending ++ [0xFF]).drop bs },
         (hdr ++ encBytes pending ++ [0xFF]).take bs,
         if (hdr ++ encBytes pending ++ [0xFF]).length ≤ bs then ZStatus.streamEnd
         else ZStatus.ok) := by
  simp [deflateStep, List.append_assoc]

/-- One writeData call on a fresh encoder buffers the whole input inside
the codec, reports the full length, and flags BytesWritten. -/
theorem zlibWriteData_run (hdr : List UInt8) (st : CState) (es : String) (md : Bool)
    (bs : Nat) (buf : List UInt8) (dev : Device) (dec : FrameDec) (io ia : Nat)
    (data : List UInt8) (hbs : 1 ≤ bs) (hwf : dev.writeFails = false) :
    zlibWriteData hdr 4 ⟨st, es, md, bs, buf, dev,
        ⟨⟨false, false, [], []⟩, dec, io, ia⟩⟩ data
      = some ((data.length : Int),
          ⟨CState.BytesWritten, es, md, bs, buf, dev,
            ⟨⟨false, false, data, []⟩, dec, io, ia⟩⟩) := by
  have hb0 : ¬ ((0 : Nat) = bs) := by omega
  rcases dev with ⟨d1, d2, d3, d4, d5, d6, d7⟩
  simp only at hwf
  subst hwf
  simp [zlibWriteData, zlibWriteLoop, deflateStep, writeBytes, deviceWrite, hb0]

/-- Draining the finish flush: with the header out, the stream ended and no
pending input, the loop pushes the whole carry to the device chunk by
chunk. -/
theorem zlibFlushFinish_drain (hdr : List UInt8) :
    ∀ fuel (carry : List UInt8) (st : CState) (es : String) (md : Bool) (bs : Nat)
      (buf : List UInt8) (dev : Device) (dec : FrameDec) (io ia : Nat),
      carry.length < fuel → 1 ≤ bs → dev.writeFails = false →
      zlibFlushLoop hdr FlushMode.finish fuel
        ⟨st, es, md, bs, buf, dev, ⟨⟨true, true, [], carry⟩, dec, io, ia⟩⟩
        = some ⟨CState.BytesWritten, es, md, bs, buf,
                { dev with written := dev.written ++ carry },
                ⟨⟨true, true, [], []⟩, dec, io, ia⟩⟩ := by
  intro fuel
  induction fuel with
  | zero => intro carry _ _ _ _ _ _ _ _ _ hlen _ _; omega
  | succ n ih =>
      intro carry st es md bs buf dev dec io ia hlen hbs hwf
      simp only [zlibFlushLoop, deflateStep_drain]
      by_cases hc : carry.length ≤ bs
      · have ht : carry.take bs = carry := List.take_of_length_le hc
        have hd : carry.drop bs = [] := List.drop_eq_nil_of_le hc
        rw [if_pos hc, ht, hd]
        rw [writeBytes_ok ZlibSub _ carry hwf]
        simp
      · rw [if_neg hc]
        rw [writeBytes_ok ZlibSub _ (carry.take bs) hwf]
        simp only [if_neg (by simp : ¬ (ZStatus.ok ≠ ZStatus.ok ∧ ZStatus.ok ≠ ZStatus.streamEnd))]
        simp only [Bool.true_eq_false, if_false]
        rw [if_pos (by simp)]
        rw [ih (carry.drop bs) CState.BytesWritten es md bs buf
            { dev with written := dev.written ++ carry.take bs } dec io ia
            (by simp; omega) hbs hwf]
        simp [List.append_assoc]

/-- The finish flush from a fresh encoder emits header, stuffed body and end
marker to the device. -/
theorem zlibFlushFinish_total (hdr : List UInt8) (fuel : Nat) (pending : List UInt8)
    (st : CState) (es : String) (md : Bool) (bs : Nat) (buf : List UInt8) (dev : Device)
    (dec : FrameDec) (io ia : Nat)
    (hlen : (hdr ++ encBytes pending ++ [0xFF]).length < fuel)
    (hbs : 1 ≤ bs) (hwf : dev.writeFails = false) :
    zlibFlushLoop hdr FlushMode.finish fuel
      ⟨st, es, md, bs, buf, dev, ⟨⟨false, false, pending, []⟩, dec, io, ia⟩⟩
      = some ⟨CState.BytesWritten, es, md, bs, buf,
              { dev with written := dev.written ++ (hdr ++ encBytes pending ++ [0xFF]) },
              ⟨⟨true, true, [], []⟩, dec, io, ia⟩⟩ := by
  cases fuel with
  | zero => omega
  | succ n =>
      simp only [zlibFlushLoop, deflateStep_first]
      by_cases hc : (hdr ++ encBytes pending ++ [0xFF]).length ≤ bs
      · rw [if_pos hc, List.take_of_length_le hc, List.drop_eq_nil_of_le hc]
        rw [writeBytes_ok ZlibSub _ _ hwf]
        simp
      · rw [if_neg hc]
        rw [writeBytes_ok ZlibSub _ _ hwf]
        simp only [if_neg (by simp : ¬ (ZStatus.ok ≠ ZStatus.ok ∧ ZStatus.ok ≠ ZStatus.streamEnd))]
        simp only [Bool.true_eq_false, if_false]
        rw [if_pos (by simp)]
        have hgoal := zlibFlushFinish_drain hdr n
            ((hdr ++ encBytes pending ++ [0xFF]).drop bs)
            CState.BytesWritten es md bs buf
            { dev with written := dev.written ++ (hdr ++ encBytes pending ++ [0xFF]).take bs }
            dec io ia (by rw [List.length_drop]; omega) hbs hwf
        rw [hgoal]
        simp [List.append_assoc]

/-- Compressing B through the deflate adapter produces exactly the framed
stream: header, byte-stuffed body, end marker. -/
theorem zlibCompress_run (fmt : StreamFormat) (level bs : Nat) (junk : UInt8)
    (B : List UInt8) (hlev : level ≤ 9) (hbs : 1 ≤ bs) (hB : B ≠ []) :
    zlibCompress fmt level bs junk B
      = some (zlibHdr fmt level ++ encBytes B ++ [0xFF]) := by
  have hBl : 1 ≤ B.length := List.length_pos.mpr hB
  have hnl : ¬ ((B.length : Int) < 1) := by omega
  have hne1 : ((B.length : Nat) : Int) ≠ -1 := by omega
  have htake : B.take ((B.length : Int)).toNat = B := by simp
  have hfl : (zlibHdr fmt level ++ encBytes B ++ [0xFF]).length < 2 * B.length + 8 := by
    have := encBytes_length_le B
    simp only [zlibHdr, List.length_append, List.length_cons, List.length_nil]
    omega
  have hopen : compOpen (zlibBackend fmt level junk) (mkZlibAdapter freshDevice bs junk)
      false true
      = (true, ⟨true, false, true,
          ⟨CState.NoBytesWritten, "", true, bs, List.replicate bs junk,
           ⟨true, false, true, false, false, [], []⟩,
           ⟨⟨false, false, [], []⟩, ⟨2, false⟩, 0, 0⟩⟩⟩) := by
    simp [compOpen, compOpenInit, mkZlibAdapter, freshDevice, deviceOpen,
          zlibBackend, zlibInit, hlev]
  simp only [zlibCompress, hopen]
  simp only [Bool.true_eq_false, if_false]
  simp only [compWriteData, hnl, if_false]
  simp only [show ¬ (CState.NoBytesWritten = CState.Error) from by simp, if_false]
  simp only [zlibBackend, htake]
  rw [zlibWriteData_run (zlibHdr fmt level) CState.NoBytesWritten "" true bs
      (List.replicate bs junk) ⟨true, false, true, false, false, [], []⟩
      ⟨2, false⟩ 0 0 B hbs rfl]
  simp only [Option.map_some', Option.bind_some, Option.some_bind]
  simp only [hne1, if_false]
  simp only [compClose]
  simp only [Bool.true_eq_false, if_false]
  simp only [zlibFinalize]
  simp only [Bool.false_eq_true, if_false]
  simp only [show (CState.BytesWritten = CState.BytesWritten) from rfl, if_true]
  rw [zlibFlushFinish_total (zlibHdr fmt level) (2 * B.length + 8) B
      CState.NoBytesWritten "" true bs (List.replicate bs junk)
      ⟨true, false, true, false, false, [], []⟩ ⟨2, false⟩ 0 0 hfl hbs rfl]
  simp [deviceClose]

/-- The avail_in region of the scratch buffer starts with the byte inflate
will fetch. -/
theorem region_cons (buf : List UInt8) (junk : UInt8) (io ia : Nat)
    (h1 : 1 ≤ ia) (h2 : io + ia ≤ buf.length) :
    (buf.drop io).take ia = buf.getD io junk :: (buf.drop (io+1)).take (ia - 1) := by
  have hio : io < buf.length := by omega
  cases ia with
  | zero => omega
  | succ m =>
      rw [List.drop_eq_getElem_cons hio, List.take_succ_cons,
          List.getD_eq_getElem buf junk hio]
      simp

/-- A non-empty input region makes the refill step a no-op, so the loop can
be restarted at the refilled state. -/
theorem zlibReadLoop_congr (junk : UInt8) (fuel : Nat) (p0 p1 : Priv ZlibSub)
    (maxSize outAvail : Nat) (outAcc : List UInt8)
    (h : zlibRefill p0 = Sum.inr p1) (h1 : ¬ p1.sub.inAvail = 0) :
    zlibReadLoop junk (fuel+1) p0 maxSize outAvail outAcc
      = zlibReadLoop junk (fuel+1) p1 maxSize outAvail outAcc := by
  have h2 : zlibRefill p1 = Sum.inr p1 := by simp [zlibRefill, h1]
  simp only [zlibReadLoop, h, h2]

/-- Core step of the readData loop correctness: with a byte available in the
region, one iteration follows the reference decoder and the loop delivers
the rest of the decoded frame. -/
theorem zlibReadCore (junk : UInt8) (fuel : Nat)
    (IH : ∀ (st : CState) (es : String) (md : Bool) (bs : Nat) (buf : List UInt8)
      (dev : Device) (enc : FrameEnc) (d : FrameDec) (io ia : Nat)
      (maxSize outAvail : Nat) (outAcc O L : List UInt8),
      buf.length = bs → io + ia ≤ bs → 1 ≤ bs →
      decodeRun d ((buf.drop io).take ia ++ dev.toRead) = some (O, L) →
      O.length < outAvail →
      ((buf.drop io).take ia ++ dev.toRead).length < fuel →
      ∃ p2 : Priv ZlibSub,
        zlibReadLoop junk fuel ⟨st, es, md, bs, buf, dev, ⟨enc, d, io, ia⟩⟩
            maxSize outAvail outAcc
          = some (((maxSize - (outAvail - O.length) : Nat) : Int), outAcc ++ O, p2)
        ∧ p2.state = CState.EndOfStream) :
    ∀ (st : CState) (es : String) (md : Bool) (bs : Nat) (buf : List UInt8)
      (dev : Device) (enc : FrameEnc) (d : FrameDec) (io ia : Nat)
      (maxSize outAvail : Nat) (outAcc O L : List UInt8),
      buf.length = bs → io + ia ≤ bs → 1 ≤ bs → 1 ≤ ia →
      decodeRun d ((buf.drop io).take ia ++ dev.toRead) = some (O, L) →
      O.length < outAvail →
      ((buf.drop io).take ia ++ dev.toRead).length < fuel + 1 →
      ∃ p2 : Priv ZlibSub,
        zlibReadLoop junk (fuel+1) ⟨st, es, md, bs, buf, dev, ⟨enc, d, io, ia⟩⟩
            maxSize outAvail outAcc
          = some (((maxSize - (outAvail - O.length) : Nat) : Int), outAcc ++ O, p2)
        ∧ p2.state = CState.EndOfStream := by
  intro st es md bs buf dev enc d io ia maxSize outAvail outAcc O L
    hbuf hio hbs hia hdec hOA hfuel
  have hia0 : ¬ (ia = 0) := by omega
  have hrefill : zlibRefill ⟨st, es, md, bs, buf, dev, ⟨enc, d, io, ia⟩⟩
      = Sum.inr ⟨st, es, md, bs, buf, dev, ⟨enc, d, io, ia⟩⟩ := by
    simp [zlibRefill, hia0]
  have hreg : (buf.drop io).take ia
      = buf.getD io junk :: (buf.drop (io+1)).take (ia - 1) :=
    region_cons buf junk io ia hia (by omega)
  rw [hreg, List.cons_append] at hdec hfuel
  rcases hi : inflateByte d (buf.getD io junk) with ⟨d2, oo, stt⟩
  cases stt with
  | dataError =>
      rw [decodeRun, hi] at hdec
      rcases oo with _ | o <;> simp at hdec
  | bufError =>
      rw [decodeRun, hi] at hdec
      rcases oo with _ | o <;> simp at hdec
  | streamEnd =>
      rw [decodeRun, hi] at hdec
      simp only [Option.some.injEq, Prod.mk.injEq] at hdec
      have hO : O = [] := hdec.1.symm
      subst hO
      refine ⟨⟨CState.EndOfStream, es, md, bs, buf,
        zlibUngetLoop buf junk (io+1) (ia-1) dev, ⟨enc, d2, io+1, ia-1⟩⟩, ?_, rfl⟩
      simp only [zlibReadLoop, hrefill, zlibInflateCall, hia0, if_false, hi]
      simp only [if_neg (by simp : ¬ (outAvail ≠ 0 ∧ ZStatus.streamEnd ≠ ZStatus.streamEnd))]
      simp
  | ok =>
      cases oo with
      | some o =>
          rw [decodeRun, hi] at hdec
          rw [Option.map_eq_some'] at hdec
          rcases hdec with ⟨⟨O1, L1⟩, hd2, heq⟩
          simp only [Prod.mk.injEq] at heq
          have hOv : O = o :: O1 := heq.1.symm
          subst hOv
          have hOA2 : O1.length + 1 < outAvail := by simpa using hOA
          have hoa0 : ¬ (outAvail = 0) := by omega
          have hrec := IH st es md bs buf dev enc d2 (io+1) (ia-1) maxSize
            (outAvail - 1) (outAcc ++ [o]) O1 L1 hbuf (by omega) hbs hd2
            (by omega)
            (by simp only [List.length_cons] at hfuel; omega)
          rcases hrec with ⟨p2, hrun, hst2⟩
          refine ⟨p2, ?_, hst2⟩
          rw [zlibReadLoop, hrefill]
          simp only [zlibInflateCall, hia0, if_false, hi, hoa0]
          rw [if_pos (And.intro (show outAvail - 1 ≠ 0 by omega)
            (by simp : (ZStatus.ok ≠ ZStatus.streamEnd)))]
          rw [hrun]
          have e1 : outAvail - 1 - O1.length = outAvail - (o :: O1).length := by
            simp only [List.length_cons]; omega
          have e2 : (outAcc ++ [o]) ++ O1 = outAcc ++ (o :: O1) := by
            rw [List.append_assoc]; rfl
          rw [e1, e2]
      | none =>
          rw [decodeRun, hi] at hdec
          have hoa0 : ¬ (outAvail = 0) := by omega
          have hrec := IH st es md bs buf dev enc d2 (io+1) (ia-1) maxSize
            outAvail outAcc O L hbuf (by omega) hbs hdec hOA
            (by simp only [List.length_cons] at hfuel; omega)
          rcases hrec with ⟨p2, hrun, hst2⟩
          refine ⟨p2, ?_, hst2⟩
          rw [zlibReadLoop, hrefill]
          simp only [zlibInflateCall, hia0, if_false, hi]
          simp only [if_pos (And.intro hoa0 (by simp : (ZStatus.ok ≠ ZStatus.streamEnd)))]
          exact hrun

/-- Main correctness of the readData loop: starting anywhere in the stream,
with the reference decoder accepting the remaining region plus device
bytes, the loop returns the full decoded output and ends at EndOfStream. -/
theorem zlibReadLoop_run (junk : UInt8) :
    ∀ (fuel : Nat) (st : CState) (es : String) (md : Bool) (bs : Nat)
      (buf : List UInt8) (dev : Device) (enc : FrameEnc) (d : FrameDec) (io ia : Nat)
      (maxSize outAvail : Nat) (outAcc O L : List UInt8),
      buf.length = bs → io + ia ≤ bs → 1 ≤ bs →
      decodeRun d ((buf.drop io).take ia ++ dev.toRead) = some (O, L) →
      O.length < outAvail →
      ((buf.drop io).take ia ++ dev.toRead).length < fuel →
      ∃ p2 : Priv ZlibSub,
        zlibReadLoop junk fuel ⟨st, es, md, bs, buf, dev, ⟨enc, d, io, ia⟩⟩
            maxSize outAvail outAcc
          = some (((maxSize - (outAvail - O.length) : Nat) : Int), outAcc ++ O, p2)
        ∧ p2.state = CState.EndOfStream := by
  intro fuel
  induction fuel with
  | zero =>
      intro st es md bs buf dev enc d io ia maxSize outAvail outAcc O L
        _ _ _ _ _ hfuel
      omega
  | succ n ih =>
      intro st es md bs buf dev enc d io ia maxSize outAvail outAcc O L
        hbuf hio hbs hdec hOA hfuel
      by_cases hia : 1 ≤ ia
      · exact zlibReadCore junk n ih st es md bs buf dev enc d io ia maxSize
          outAvail outAcc O L hbuf hio hbs hia hdec hOA hfuel
      · have hia0 : ia = 0 := by omega
        subst hia0
        simp only [List.take_zero, List.nil_append] at hdec hfuel
        have htne : dev.toRead ≠ [] := by
          intro h; rw [h] at hdec; exact absurd hdec (by simp [decodeRun])
        have hchunkne : dev.toRead.take bs ≠ [] := by
          rw [Ne, List.take_eq_nil_iff]
          push_neg
          exact ⟨by omega, htne⟩
        have hchunklen : 1 ≤ (dev.toRead.take bs).length := by
          rcases h : dev.toRead.take bs with _ | ⟨x, xs⟩
          · exact absurd h hchunkne
          · simp
        have hchunkle : (dev.toRead.take bs).length ≤ bs := by
          simp [List.length_take]
        have hchunk0 : ¬ ((dev.toRead.take bs).length = 0) := by omega
        have hsplit : dev.toRead.take bs ++ dev.toRead.drop bs = dev.toRead :=
          List.take_append_drop bs dev.toRead
        have hbuflen : (dev.toRead.take bs ++ buf.drop (dev.toRead.take bs).length).length
            = bs := by
          simp only [List.length_append, List.length_drop, hbuf]
          omega
        have hregion : ((dev.toRead.take bs ++ buf.drop (dev.toRead.take bs).length).drop 0).take
              (dev.toRead.take bs).length
            = dev.toRead.take bs := by
          rw [List.drop_zero, List.take_left]
        by_cases hst : st = CState.InStream
        · subst hst
          have hrefill : zlibRefill ⟨CState.InStream, es, md, bs, buf, dev,
              ⟨enc, d, io, 0⟩⟩
              = Sum.inr ⟨CState.InStream, es, md, bs,
                  dev.toRead.take bs ++ buf.drop (dev.toRead.take bs).length,
                  { dev with toRead := dev.toRead.drop bs },
                  ⟨enc, d, 0, (dev.toRead.take bs).length⟩⟩ := by
            simp [zlibRefill, deviceRead]
          rw [zlibReadLoop_congr junk n _ _ maxSize outAvail outAcc hrefill hchunk0]
          have hcore := zlibReadCore junk n ih CState.InStream es md bs
            (dev.toRead.take bs ++ buf.drop (dev.toRead.take bs).length)
            { dev with toRead := dev.toRead.drop bs } enc d 0
            (dev.toRead.take bs).length maxSize outAvail outAcc O L
            hbuflen (by omega) hbs hchunklen ?_ hOA ?_
          · exact hcore
          · rw [hregion]
            simp only []
            rw [hsplit]
            exact hdec
          · rw [hregion]
            simp only []
            rw [hsplit]
            exact hfuel
        · have hrefill : zlibRefill ⟨st, es, md, bs, buf, dev, ⟨enc, d, io, 0⟩⟩
              = Sum.inr ⟨CState.InStream, es, md, bs,
                  dev.toRead.take bs ++ buf.drop (dev.toRead.take bs).length,
                  { dev with toRead := dev.toRead.drop bs },
                  ⟨enc, d, 0, (dev.toRead.take bs).length⟩⟩ := by
            simp [zlibRefill, deviceRead, hst, hchunkne]
            exact ⟨by omega, htne⟩
          rw [zlibReadLoop_congr junk n _ _ maxSize outAvail outAcc hrefill hchunk0]
          have hcore := zlibReadCore junk n ih CState.InStream es md bs
            (dev.toRead.take bs ++ buf.drop (dev.toRead.take bs).length)
            { dev with toRead := dev.toRead.drop bs } enc d 0
            (dev.toRead.take bs).length maxSize outAvail outAcc O L
            hbuflen (by omega) hbs hchunklen ?_ hOA ?_
          · exact hcore
          · rw [hregion]
            simp only []
            rw [hsplit]
            exact hdec
          · rw [hregion]
            simp only []
            rw [hsplit]
            exact hfuel

/-- Decompressing the framed stream through a fresh read adapter returns
exactly the original bytes. -/
theorem zlibDecompress_run (fmt : StreamFormat) (level bs : Nat) (junk : UInt8)
    (B : List UInt8) (hbs : 1 ≤ bs) :
    zlibDecompress fmt level bs junk
        (zlibHdr fmt level ++ encBytes B ++ [0xFF]) (B.length + 1)
      = some B := by
  have hopen : compOpen (zlibBackend fmt level junk)
      (mkZlibAdapter { freshDevice with
        toRead := zlibHdr fmt level ++ encBytes B ++ [0xFF] } bs junk) true false
      = (true, ⟨true, true, false,
          ⟨CState.NotReadFirstByte, "", true, bs, List.replicate bs junk,
           ⟨true, true, false, false, false,
            zlibHdr fmt level ++ encBytes B ++ [0xFF], []⟩,
           ⟨⟨false, false, [], []⟩, ⟨2, false⟩, 0, 0⟩⟩⟩) := by
    simp [compOpen, compOpenInit, mkZlibAdapter, freshDevice, deviceOpen,
          zlibBackend, zlibInit]
  have hdec : decodeRun ⟨2, false⟩
      (((List.replicate bs junk).drop 0).take 0
        ++ (zlibHdr fmt level ++ encBytes B ++ [0xFF]))
      = some (B, []) := by
    rw [List.take_zero, List.nil_append]
    have h2 : (zlibHdr fmt level).length = 2 := rfl
    rw [List.append_assoc]
    have := decodeRun_hdr (zlibHdr fmt level) false (encBytes B ++ [0xFF])
    rw [h2] at this
    rw [this]
    exact decodeRun_enc B []
  obtain ⟨p2, hloop, hst2⟩ := zlibReadLoop_run junk
    ((zlibHdr fmt level ++ encBytes B ++ [0xFF]).length + 2)
    CState.NotReadFirstByte "" true bs (List.replicate bs junk)
    ⟨true, true, false, false, false, zlibHdr fmt level ++ encBytes B ++ [0xFF], []⟩
    ⟨false, false, [], []⟩ ⟨2, false⟩ 0 0 (B.length + 1) (B.length + 1) [] B []
    (by simp) (by omega) hbs hdec (by omega)
    (by simp)
  simp only [zlibDecompress, hopen]
  simp only [Bool.true_eq_false, if_false]
  simp only [compReadData]
  simp only [show ¬ (CState.NotReadFirstByte = CState.EndOfStream) from by simp, if_false]
  simp only [show ¬ (CState.NotReadFirstByte = CState.Error) from by simp, if_false]
  simp only [zlibBackend, zlibReadData]
  rw [hloop]
  have harith : (B.length + 1) - ((B.length + 1) - B.length) = B.length := by omega
  rw [harith]
  simp only [Option.map_some', Option.some_bind]
  rw [if_pos (by positivity)]
  simp

/-- Compressing the empty input writes nothing at all. -/
theorem zlibCompress_nil (fmt : StreamFormat) (level bs : Nat) (junk : UInt8)
    (hlev : level ≤ 9) :
    zlibCompress fmt level bs junk [] = some [] := by
  have hopen : compOpen (zlibBackend fmt level junk) (mkZlibAdapter freshDevice bs junk)
      false true
      = (true, ⟨true, false, true,
          ⟨CState.NoBytesWritten, "", true, bs, List.replicate bs junk,
           ⟨true, false, true, false, false, [], []⟩,
           ⟨⟨false, false, [], []⟩, ⟨2, false⟩, 0, 0⟩⟩⟩) := by
    simp [compOpen, compOpenInit, mkZlibAdapter, freshDevice, deviceOpen,
          zlibBackend, zlibInit, hlev]
  simp only [zlibCompress, hopen]
  simp [compWriteData, compClose, zlibBackend, zlibFinalize, deviceClose]

/-- Decompressing an empty endpoint returns no bytes without error. -/
theorem zlibDecompress_nil (fmt : StreamFormat) (level bs : Nat) (junk : UInt8) :
    zlibDecompress fmt level bs junk [] 1 = some [] := by
  have hopen : compOpen (zlibBackend fmt level junk)
      (mkZlibAdapter { freshDevice with toRead := [] } bs junk) true false
      = (true, ⟨true, true, false,
          ⟨CState.NotReadFirstByte, "", true, bs, List.replicate bs junk,
           ⟨true, true, false, false, false, [], []⟩,
           ⟨⟨false, false, [], []⟩, ⟨2, false⟩, 0, 0⟩⟩⟩) := by
    simp [compOpen, compOpenInit, mkZlibAdapter, freshDevice, deviceOpen,
          zlibBackend, zlibInit]
  simp only [zlibDecompress, hopen]
  simp [compReadData, zlibBackend, zlibReadData, zlibReadLoop, zlibRefill, deviceRead]

/-- Round trip through the deflate adapter for every container format,
level, buffer size and input. -/
theorem roundTrip_deflate (fmt : StreamFormat) (level bs : Nat) (junk : UInt8)
    (B : List UInt8) (hlev : level ≤ 9) (hbs : 1 ≤ bs) :
    roundTrip (CodecCfg.deflate fmt level) bs junk B = some B := by
  rcases hB : B with _ | ⟨b, Bt⟩
  · simp only [roundTrip, zlibCompress_nil fmt level bs junk hlev, Option.some_bind]
    exact zlibDecompress_nil fmt level bs junk
  · rw [← hB]
    have hBne : B ≠ [] := by rw [hB]; simp
    simp only [roundTrip, zlibCompress_run fmt level bs junk B hlev hbs hBne,
      Option.some_bind]
    exact zlibDecompress_run fmt level bs junk B hbs

/-- zstd end-directive step on a fully started encoder just drains the
carry, reporting the bytes still to flush. -/
theorem zstdStep_drain (hdr : List UInt8) (carry : List UInt8) (bs : Nat) :
    zstdCompressStep hdr { hdrOut := true, ended := true, pending := [], carry := carry }
        [] bs FlushMode.finish
      = ({ hdrOut := true, ended := true, pending := [], carry := carry.drop bs },
         carry.take bs, carry.length - bs) := by
  simp [zstdCompressStep, encBytes_nil]

/-- zstd end-directive step on a fresh encoder emits the whole frame. -/
theorem zstdStep_first (hdr : List UInt8) (pending : List UInt8) (bs : Nat) :
    zstdCompressStep hdr { hdrOut := false, ended := false, pending := pending, carry := [] }
        [] bs FlushMode.finish
      = ({ hdrOut := true, ended := true, pending := [],
           carry := (hdr ++ encBytes pending ++ [0xFF]).drop bs },
         (hdr ++ encBytes pending ++ [0xFF]).take bs,
         (hdr ++ encBytes pending ++ [0xFF]).length - bs) := by
  simp [zstdCompressStep, List.append_assoc]

/-- One zstd writeData call on a fresh encoder buffers the whole input and
reports the full length. -/
theorem zstdWriteData_run (hdr : List UInt8) (st : CState) (es : String) (md : Bool)
    (bs : Nat) (buf : List UInt8) (dev : Device) (dec : FrameDec) (pos size : Nat)
    (data : List UInt8) (hwf : dev.writeFails = false) :
    zstdWriteData true hdr 4 ⟨st, es, md, bs, buf, dev,
        ⟨⟨false, false, [], []⟩, dec, pos, size⟩⟩ data
      = some ((data.length : Int),
          ⟨CState.BytesWritten, es, md, bs, buf, dev,
            ⟨⟨false, false, data, []⟩, dec, pos, size⟩⟩) := by
  rcases dev with ⟨d1, d2, d3, d4, d5, d6, d7⟩
  simp only at hwf
  subst hwf
  simp [zstdWriteData, zstdWriteLoop, zstdCompressStep, writeBytes, deviceWrite]

/-- Draining the zstd end flush: the loop pushes the whole carry to the
device chunk by chunk until nothing remains to flush. -/
theorem zstdFlushFinish_drain (hdr : List UInt8) :
    ∀ fuel (carry : List UInt8) (st : CState) (es : String) (md : Bool) (bs : Nat)
      (buf : List UInt8) (dev : Device) (dec : FrameDec) (pos size : Nat),
      carry.length < fuel → 1 ≤ bs → dev.writeFails = false →
      zstdFlushLoop hdr FlushMode.finish fuel
        ⟨st, es, md, bs, buf, dev, ⟨⟨true, true, [], carry⟩, dec, pos, size⟩⟩
        = some ⟨CState.BytesWritten, es, md, bs, buf,
                { dev with written := dev.written ++ carry },
                ⟨⟨true, true, [], []⟩, dec, pos, size⟩⟩ := by
  intro fuel
  induction fuel with
  | zero => intro carry _ _ _ _ _ _ _ _ _ hlen _ _; omega
  | succ n ih =>
      intro carry st es md bs buf dev dec pos size hlen hbs hwf
      simp only [zstdFlushLoop, zstdStep_drain]
      rw [writeBytes_ok ZstdSub _ (carry.take bs) hwf]
      by_cases hc : carry.length ≤ bs
      · have hs0 : carry.length - bs = 0 := by omega
        rw [List.take_of_length_le hc, List.drop_eq_nil_of_le hc]
        simp [hs0]
      · have hs0 : ¬ (carry.length - bs = 0) := by omega
        simp only [Bool.true_eq_false, if_false, if_pos hs0]
        rw [ih (carry.drop bs) CState.BytesWritten es md bs buf
            { dev with written := dev.written ++ carry.take bs } dec pos size
            (by rw [List.length_drop]; omega) hbs hwf]
        simp [List.append_assoc]

/-- The zstd end flush from a fresh encoder emits header, stuffed body and
end marker to the device. -/
theorem zstdFlushFinish_total (hdr : List UInt8) (fuel : Nat) (pending : List UInt8)
    (st : CState) (es : String) (md : Bool) (bs : Nat) (buf : List UInt8) (dev : Device)
    (dec : FrameDec) (pos size : Nat)
    (hlen : (hdr ++ encBytes pending ++ [0xFF]).length < fuel)
    (hbs : 1 ≤ bs) (hwf : dev.writeFails = false) :
    zstdFlushLoop hdr FlushMode.finish fuel
      ⟨st, es, md, bs, buf, dev, ⟨⟨false, false, pending, []⟩, dec, pos, size⟩⟩
      = some ⟨CState.BytesWritten, es, md, bs, buf,
              { dev with written := dev.written ++ (hdr ++ encBytes pending ++ [0xFF]) },
              ⟨⟨true, true, [], []⟩, dec, pos, size⟩⟩ := by
  cases fuel with
  | zero => omega
  | succ n =>
      simp only [zstdFlushLoop, zstdStep_first]
      rw [writeBytes_ok ZstdSub _ _ hwf]
      by_cases hc : (hdr ++ encBytes pending ++ [0xFF]).length ≤ bs
      · have hs0 : (hdr ++ encBytes pending ++ [0xFF]).length - bs = 0 := by omega
        rw [List.take_of_length_le hc, List.drop_eq_nil_of_le hc]
        simp [hs0]
        exact fun h => absurd (by simpa using hs0) h
      · have hs0 : ¬ ((hdr ++ encBytes pending ++ [0xFF]).length - bs = 0) := by omega
        simp only [Bool.true_eq_false, if_false, if_pos hs0]
        have hgoal := zstdFlushFinish_drain hdr n
            ((hdr ++ encBytes pending ++ [0xFF]).drop bs)
            CState.BytesWritten es md bs buf
            { dev with written := dev.written ++ (hdr ++ encBytes pending ++ [0xFF]).take bs }
            dec pos size (by rw [List.length_drop]; omega) hbs hwf
        rw [hgoal]
        simp [List.append_assoc]

/-- Compressing B through the zstd adapter produces exactly the framed
stream. -/
theorem zstdCompress_run (level bs : Nat) (junk : UInt8) (B : List UInt8)
    (hbs : 1 ≤ bs) (hB : B ≠ []) :
    zstdCompress level bs junk B
      = some (zstdHdr level ++ encBytes B ++ [0xFF]) := by
  have hBl : 1 ≤ B.length := List.length_pos.mpr hB
  have hnl : ¬ ((B.length : Int) < 1) := by omega
  have hne1 : ((B.length : Nat) : Int) ≠ -1 := by omega
  have htake : B.take ((B.length : Int)).toNat = B := by simp
  have hbs2 : 1 ≤ max zstdCStreamOutSize bs := by
    have : (8 : Nat) ≤ max zstdCStreamOutSize bs := le_max_left _ _
    omega
  have hfl : (zstdHdr level ++ encBytes B ++ [0xFF]).length < 2 * B.length + 8 := by
    have := encBytes_length_le B
    simp only [zstdHdr, List.length_append, List.length_cons, List.length_nil]
    omega
  have hopen : compOpen (zstdBackend true level junk) (mkZstdAdapter true freshDevice bs)
      false true
      = (true, ⟨true, false, true,
          ⟨CState.Closed, "", true, max zstdCStreamOutSize bs,
           List.replicate (max zstdCStreamOutSize bs) junk,
           ⟨true, false, true, false, false, [], []⟩,
           ⟨⟨false, false, [], []⟩, ⟨1, false⟩, 0, 0⟩⟩⟩) := by
    simp [compOpen, compOpenInit, mkZstdAdapter, freshDevice, deviceOpen,
          zstdBackend, zstdInit]
  simp only [zstdCompress, hopen]
  simp only [Bool.true_eq_false, if_false]
  simp only [compWriteData, hnl, if_false]
  simp only [show ¬ (CState.Closed = CState.Error) from by simp, if_false]
  simp only [zstdBackend, htake]
  rw [zstdWriteData_run (zstdHdr level) CState.Closed "" true
      (max zstdCStreamOutSize bs) (List.replicate (max zstdCStreamOutSize bs) junk)
      ⟨true, false, true, false, false, [], []⟩ ⟨1, false⟩ 0 0 B rfl]
  simp only [Option.map_some', Option.some_bind]
  simp only [hne1, if_false]
  simp only [compClose]
  simp only [Bool.true_eq_false, if_false]
  simp only [zstdFinalize, if_pos rfl]
  simp only [Bool.false_eq_true, if_false]
  simp only [show (CState.BytesWritten = CState.BytesWritten) from rfl, if_true]
  rw [zstdFlushFinish_total (zstdHdr level) (2 * B.length + 8) B
      CState.NoBytesWritten "" true (max zstdCStreamOutSize bs)
      (List.replicate (max zstdCStreamOutSize bs) junk)
      ⟨true, false, true, false, false, [], []⟩ ⟨1, false⟩ 0 0 hfl hbs2 rfl]
  simp [deviceClose]

/-- Compressing the empty input through the zstd adapter writes nothing. -/
theorem zstdCompress_nil (level bs : Nat) (junk : UInt8) :
    zstdCompress level bs junk [] = some [] := by
  have hopen : compOpen (zstdBackend true level junk) (mkZstdAdapter true freshDevice bs)
      false true
      = (true, ⟨true, false, true,
          ⟨CState.Closed, "", true, max zstdCStreamOutSize bs,
           List.replicate (max zstdCStreamOutSize bs) junk,
           ⟨true, false, true, false, false, [], []⟩,
           ⟨⟨false, false, [], []⟩, ⟨1, false⟩, 0, 0⟩⟩⟩) := by
    simp [compOpen, compOpenInit, mkZstdAdapter, freshDevice, deviceOpen,
          zstdBackend, zstdInit]
  simp only [zstdCompress, hopen]
  simp [compWriteData, compClose, zstdBackend, zstdFinalize, deviceClose]

/-- A non-exhausted input buffer makes the zstd refill step a no-op. -/
theorem zstdReadLoop_congr (junk : UInt8) (fuel : Nat) (p0 p1 : Priv ZstdSub)
    (maxSize outPos : Nat) (outAcc : List UInt8)
    (h : zstdRefill p0 = Sum.inr p1) (h1 : ¬ p1.sub.size ≤ p1.sub.pos) :
    zstdReadLoop junk (fuel+1) p0 maxSize outPos outAcc
      = zstdReadLoop junk (fuel+1) p1 maxSize outPos outAcc := by
  have h2 : zstdRefill p1 = Sum.inr p1 := by simp [zstdRefill, h1]
  simp only [zstdReadLoop, h, h2]

/-- Core step of the zstd readData loop correctness. -/
theorem zstdReadCore (junk : UInt8) (fuel : Nat)
    (IH : ∀ (st : CState) (es : String) (md : Bool) (bs : Nat) (buf : List UInt8)
      (dev : Device) (enc : FrameEnc) (d : FrameDec) (pos size : Nat)
      (maxSize outPos : Nat) (outAcc O L : List UInt8),
      buf.length = bs → size ≤ bs → 1 ≤ bs →
      decodeRun d ((buf.drop pos).take (size - pos) ++ dev.toRead) = some (O, L) →
      outPos + O.length < maxSize →
      ((buf.drop pos).take (size - pos) ++ dev.toRead).length < fuel →
      ∃ p2 : Priv ZstdSub,
        zstdReadLoop junk fuel ⟨st, es, md, bs, buf, dev, ⟨enc, d, pos, size⟩⟩
            maxSize outPos outAcc
          = some (((outPos + O.length : Nat) : Int), outAcc ++ O, p2)
        ∧ p2.state = CState.EndOfStream) :
    ∀ (st : CState) (es : String) (md : Bool) (bs : Nat) (buf : List UInt8)
      (dev : Device) (enc : FrameEnc) (d : FrameDec) (pos size : Nat)
      (maxSize outPos : Nat) (outAcc O L : List UInt8),
      buf.length = bs → size ≤ bs → 1 ≤ bs → pos < size →
      decodeRun d ((buf.drop pos).take (size - pos) ++ dev.toRead) = some (O, L) →
      outPos + O.length < maxSize →
      ((buf.drop pos).take (size - pos) ++ dev.toRead).length < fuel + 1 →
      ∃ p2 : Priv ZstdSub,
        zstdReadLoop junk (fuel+1) ⟨st, es, md, bs, buf, dev, ⟨enc, d, pos, size⟩⟩
            maxSize outPos outAcc
          = some (((outPos + O.length : Nat) : Int), outAcc ++ O, p2)
        ∧ p2.state = CState.EndOfStream := by
  intro st es md bs buf dev enc d pos size maxSize outPos outAcc O L
    hbuf hsize hbs hps hdec hOA hfuel
  have hps0 : ¬ (size ≤ pos) := by omega
  have hrefill : zstdRefill ⟨st, es, md, bs, buf, dev, ⟨enc, d, pos, size⟩⟩
      = Sum.inr ⟨st, es, md, bs, buf, dev, ⟨enc, d, pos, size⟩⟩ := by
    simp [zstdRefill, hps0]
  have hia : 1 ≤ size - pos := by omega
  have hreg : (buf.drop pos).take (size - pos)
      = buf.getD pos junk :: (buf.drop (pos+1)).take (size - pos - 1) :=
    region_cons buf junk pos (size - pos) hia (by omega)
  have hsub : size - pos - 1 = size - (pos + 1) := by omega
  rw [hsub] at hreg
  rw [hreg, List.cons_append] at hdec hfuel
  rcases hi : inflateByte d (buf.getD pos junk) with ⟨d2, oo, stt⟩
  cases stt with
  | dataError =>
      rw [decodeRun, hi] at hdec
      rcases oo with _ | o <;> simp at hdec
  | bufError =>
      rw [decodeRun, hi] at hdec
      rcases oo with _ | o <;> simp at hdec
  | streamEnd =>
      rw [decodeRun, hi] at hdec
      simp only [Option.some.injEq, Prod.mk.injEq] at hdec
      have hO : O = [] := hdec.1.symm
      subst hO
      refine ⟨⟨CState.EndOfStream, es, md, bs, buf,
        zstdUngetLoop buf junk (pos+1) size dev,
        ⟨enc, d2, pos+1, min (pos+1) size⟩⟩, ?_, rfl⟩
      simp only [zstdReadLoop, hrefill, zstdDecompressCall, hps0, if_false, hi]
      simp
  | ok =>
      cases oo with
      | some o =>
          rw [decodeRun, hi] at hdec
          rw [Option.map_eq_some'] at hdec
          rcases hdec with ⟨⟨O1, L1⟩, hd2, heq⟩
          simp only [Prod.mk.injEq] at heq
          have hOv : O = o :: O1 := heq.1.symm
          subst hOv
          have hOA2 : outPos + (O1.length + 1) < maxSize := by simpa using hOA
          have hout : ¬ (maxSize ≤ outPos) := by omega
          have hrec := IH st es md bs buf dev enc d2 (pos+1) size maxSize
            (outPos + 1) (outAcc ++ [o]) O1 L1 hbuf hsize hbs hd2
            (by omega)
            (by simp only [List.length_cons] at hfuel; omega)
          rcases hrec with ⟨p2, hrun, hst2⟩
          refine ⟨p2, ?_, hst2⟩
          rw [zstdReadLoop, hrefill]
          simp only [zstdDecompressCall, hps0, if_false, hi, hout]
          rw [if_pos (show outPos + 1 < maxSize by omega)]
          rw [hrun]
          have e1 : outPos + 1 + O1.length = outPos + (o :: O1).length := by
            simp only [List.length_cons]; omega
          have e2 : (outAcc ++ [o]) ++ O1 = outAcc ++ (o :: O1) := by
            rw [List.append_assoc]; rfl
          rw [e1, e2]
      | none =>
          rw [decodeRun, hi] at hdec
          have hout : outPos < maxSize := by omega
          have hrec := IH st es md bs buf dev enc d2 (pos+1) size maxSize
            outPos outAcc O L hbuf hsize hbs hdec hOA
            (by simp only [List.length_cons] at hfuel; omega)
          rcases hrec with ⟨p2, hrun, hst2⟩
          refine ⟨p2, ?_, hst2⟩
          rw [zstdReadLoop, hrefill]
          simp only [zstdDecompressCall, hps0, if_false, hi]
          rw [if_pos hout]
          exact hrun

/-- Main correctness of the zstd readData loop. -/
theorem zstdReadLoop_run (junk : UInt8) :
    ∀ (fuel : Nat) (st : CState) (es : String) (md : Bool) (bs : Nat)
      (buf : List UInt8) (dev : Device) (enc : FrameEnc) (d : FrameDec) (pos size : Nat)
      (maxSize outPos : Nat) (outAcc O L : List UInt8),
      buf.length = bs → size ≤ bs → 1 ≤ bs →
      decodeRun d ((buf.drop pos).take (size - pos) ++ dev.toRead) = some (O, L) →
      outPos + O.length < maxSize →
      ((buf.drop pos).take (size - pos) ++ dev.toRead).length < fuel →
      ∃ p2 : Priv ZstdSub,
        zstdReadLoop junk fuel ⟨st, es, md, bs, buf, dev, ⟨enc, d, pos, size⟩⟩
            maxSize outPos outAcc
          = some (((outPos + O.length : Nat) : Int), outAcc ++ O, p2)
        ∧ p2.state = CState.EndOfStream := by
  intro fuel
  induction fuel with
  | zero =>
      intro st es md bs buf dev enc d pos size maxSize outPos outAcc O L
        _ _ _ _ _ hfuel
      omega
  | succ n ih =>
      intro st es md bs buf dev enc d pos size maxSize outPos outAcc O L
        hbuf hsize hbs hdec hOA hfuel
      by_cases hps : pos < size
      · exact zstdReadCore junk n ih st es md bs buf dev enc d pos size maxSize
          outPos outAcc O L hbuf hsize hbs hps hdec hOA hfuel
      · have hsz0 : size - pos = 0 := by omega
        rw [hsz0, List.take_zero, List.nil_append] at hdec hfuel
        have htne : dev.toRead ≠ [] := by
          intro h; rw [h] at hdec; exact absurd hdec (by simp [decodeRun])
        have hchunkne : dev.toRead.take bs ≠ [] := by
          rw [Ne, List.take_eq_nil_iff]
          push_neg
          exact ⟨by omega, htne⟩
        have hchunklen : 1 ≤ (dev.toRead.take bs).length := by
          rcases h : dev.toRead.take bs with _ | ⟨x, xs⟩
          · exact absurd h hchunkne
          · simp
        have hchunkle : (dev.toRead.take bs).length ≤ bs := by
          simp [List.length_take]
        have hps0 : size ≤ pos := by omega
        have hsplit : dev.toRead.take bs ++ dev.toRead.drop bs = dev.toRead :=
          List.take_append_drop bs dev.toRead
        have hbuflen : (dev.toRead.take bs ++ buf.drop (dev.toRead.take bs).length).length
            = bs := by
          simp only [List.length_append, List.length_drop, hbuf]
          omega
        have hregion : ((dev.toRead.take bs ++ buf.drop (dev.toRead.take bs).length).drop 0).take
              ((dev.toRead.take bs).length - 0)
            = dev.toRead.take bs := by
          rw [List.drop_zero, Nat.sub_zero, List.take_left]
        have hnotin : ¬ ((dev.toRead.take bs).length ≤ 0) := by omega
        by_cases hst : st = CState.InStream
        · subst hst
          have hrefill : zstdRefill ⟨CState.InStream, es, md, bs, buf, dev,
              ⟨enc, d, pos, size⟩⟩
              = Sum.inr ⟨CState.InStream, es, md, bs,
                  dev.toRead.take bs ++ buf.drop (dev.toRead.take bs).length,
                  { dev with toRead := dev.toRead.drop bs },
                  ⟨enc, d, 0, (dev.toRead.take bs).length⟩⟩ := by
            simp [zstdRefill, deviceRead, hps0]
          rw [zstdReadLoop_congr junk n _ _ maxSize outPos outAcc hrefill hnotin]
          have hcore := zstdReadCore junk n ih CState.InStream es md bs
            (dev.toRead.take bs ++ buf.drop (dev.toRead.take bs).length)
            { dev with toRead := dev.toRead.drop bs } enc d 0
            (dev.toRead.take bs).length maxSize outPos outAcc O L
            hbuflen hchunkle hbs (by omega) ?_ hOA ?_
          · exact hcore
          · rw [hregion]
            simp only []
            rw [hsplit]
            exact hdec
          · rw [hregion]
            simp only []
            rw [hsplit]
            exact hfuel
        · have hrefill : zstdRefill ⟨st, es, md, bs, buf, dev, ⟨enc, d, pos, size⟩⟩
              = Sum.inr ⟨CState.InStream, es, md, bs,
                  dev.toRead.take bs ++ buf.drop (dev.toRead.take bs).length,
                  { dev with toRead := dev.toRead.drop bs },
                  ⟨enc, d, 0, (dev.toRead.take bs).length⟩⟩ := by
            simp [zstdRefill, deviceRead, hst, hchunkne, hps0]
            exact ⟨by omega, htne⟩
          rw [zstdReadLoop_congr junk n _ _ maxSize outPos outAcc hrefill hnotin]
          have hcore := zstdReadCore junk n ih CState.InStream es md bs
            (dev.toRead.take bs ++ buf.drop (dev.toRead.take bs).length)
            { dev with toRead := dev.toRead.drop bs } enc d 0
            (dev.toRead.take bs).length maxSize outPos outAcc O L
            hbuflen hchunkle hbs (by omega) ?_ hOA ?_
          · exact hcore
          · rw [hregion]
            simp only []
            rw [hsplit]
            exact hdec
          · rw [hregion]
            simp only []
            rw [hsplit]
            exact hfuel

/-- Decompressing the framed zstd stream through a fresh read adapter
returns exactly the original bytes. -/
theorem zstdDecompress_run (level bs : Nat) (junk : UInt8) (B : List UInt8) :
    zstdDecompress level bs junk
        (zstdHdr level ++ encBytes B ++ [0xFF]) (B.length + 1)
      = some B := by
  have hbs2 : 1 ≤ max zstdDStreamInSize bs := by
    have : (8 : Nat) ≤ max zstdDStreamInSize bs := le_max_left _ _
    omega
  have hopen : compOpen (zstdBackend true level junk)
      (mkZstdAdapter true { freshDevice with
        toRead := zstdHdr level ++ encBytes B ++ [0xFF] } bs) true false
      = (true, ⟨true, true, false,
          ⟨CState.Closed, "", true, max zstdDStreamInSize bs,
           List.replicate (max zstdDStreamInSize bs) junk,
           ⟨true, true, false, false, false,
            zstdHdr level ++ encBytes B ++ [0xFF], []⟩,
           ⟨⟨false, false, [], []⟩, ⟨1, false⟩, 0, 0⟩⟩⟩) := by
    simp [compOpen, compOpenInit, mkZstdAdapter, freshDevice, deviceOpen,
          zstdBackend, zstdInit]
  have hdec : decodeRun ⟨1, false⟩
      ((((List.replicate (max zstdDStreamInSize bs) junk).drop 0).take (0 - 0))
        ++ (zstdHdr level ++ encBytes B ++ [0xFF]))
      = some (B, []) := by
    rw [Nat.sub_zero, List.take_zero, List.nil_append]
    have h1 : (zstdHdr level).length = 1 := rfl
    rw [List.append_assoc]
    have := decodeRun_hdr (zstdHdr level) false (encBytes B ++ [0xFF])
    rw [h1] at this
    rw [this]
    exact decodeRun_enc B []
  obtain ⟨p2, hloop, hst2⟩ := zstdReadLoop_run junk
    ((zstdHdr level ++ encBytes B ++ [0xFF]).length + 2)
    CState.Closed "" true (max zstdDStreamInSize bs)
    (List.replicate (max zstdDStreamInSize bs) junk)
    ⟨true, true, false, false, false, zstdHdr level ++ encBytes B ++ [0xFF], []⟩
    ⟨false, false, [], []⟩ ⟨1, false⟩ 0 0 (B.length + 1) 0 [] B []
    (by simp) (by omega) hbs2 hdec (by omega) (by simp)
  simp only [zstdDecompress, hopen]
  simp only [Bool.true_eq_false, if_false]
  simp only [compReadData]
  simp only [show ¬ (CState.Closed = CState.EndOfStream) from by simp, if_false]
  simp only [show ¬ (CState.Closed = CState.Error) from by simp, if_false]
  simp only [zstdBackend, zstdReadData, if_pos rfl]
  rw [hloop]
  simp

/-- Decompressing an empty endpoint through the zstd adapter returns no
bytes without error. -/
theorem zstdDecompress_nil (level bs : Nat) (junk : UInt8) :
    zstdDecompress level bs junk [] 1 = some [] := by
  have hopen : compOpen (zstdBackend true level junk)
      (mkZstdAdapter true { freshDevice with toRead := [] } bs) true false
      = (true, ⟨true, true, false,
          ⟨CState.Closed, "", true, max zstdDStreamInSize bs,
           List.replicate (max zstdDStreamInSize bs) junk,
           ⟨true, true, false, false, false, [], []⟩,
           ⟨⟨false, false, [], []⟩, ⟨1, false⟩, 0, 0⟩⟩⟩) := by
    simp [compOpen, compOpenInit, mkZstdAdapter, freshDevice, deviceOpen,
          zstdBackend, zstdInit]
  simp only [zstdDecompress, hopen]
  simp [compReadData, zstdBackend, zstdReadData, zstdReadLoop, zstdRefill, deviceRead]

/-- Round trip through the zstd adapter for every level, buffer size and
input. -/
theorem roundTrip_zstd (level bs : Nat) (junk : UInt8) (B : List UInt8)
    (hbs : 1 ≤ bs) :
    roundTrip (CodecCfg.zstd level) bs junk B = some B := by
  rcases hB : B with _ | ⟨b, Bt⟩
  · simp only [roundTrip, zstdCompress_nil level bs junk, Option.some_bind]
    exact zstdDecompress_nil level bs junk
  · rw [← hB]
    have hBne : B ≠ [] := by rw [hB]; simp
    simp only [roundTrip, zstdCompress_run level bs junk B hbs hBne, Option.some_bind]
    exact zstdDecompress_run level bs junk B

/-- Claim C1: round trip. Writing any byte sequence through an open-for-write
adapter and closing it, then reading the endpoint bytes back through a fresh
open-for-read adapter of the same supported (codec, containerFormat, level)
configuration, yields exactly the original bytes, for both codec backends
and any buffer size of at least one byte. -/
theorem c1_round_trip (cfg : CodecCfg) (bs : Nat) (junk : UInt8) (B : List UInt8)
    (hsup : cfg.supported) (hbs : 1 ≤ bs) :
    roundTrip cfg bs junk B = some B := by
  cases cfg with
  | deflate fmt level => exact roundTrip_deflate fmt level bs junk B hsup hbs
  | zstd level => exact roundTrip_zstd level bs junk B hbs

theorem c1_round_trip_witness :
    (CodecCfg.deflate StreamFormat.GzipFormat 6).supported ∧ (1 : Nat) ≤ 3 ∧
    roundTrip (CodecCfg.deflate StreamFormat.GzipFormat 6) 3 0xAA
        [0x00, 0xFE, 0xFF, 0x41]
      = some [0x00, 0xFE, 0xFF, 0x41] :=
  ⟨by norm_num [CodecCfg.supported], by decide,
    c1_round_trip (CodecCfg.deflate StreamFormat.GzipFormat 6) 3 0xAA
      [0x00, 0xFE, 0xFF, 0x41] (by norm_num [CodecCfg.supported]) (by decide)⟩

/-! Helper lemmas and easy claims -/

/-- Claim C9: a write with len below 1 (including 0 and negative lengths) is
a pure no-op: it returns 0 and the whole adapter state, endpoint included,
is returned unchanged, whatever the lifecycle state. -/
theorem c9_zero_write_noop (σ : Type) (B : Backend σ) (fuel : Nat)
    (a : Adapter σ) (data : List UInt8) (len : Int) (h : len < 1) :
    compWriteData B fuel a data len = some (0, a) := by
  simp [compWriteData, h]

theorem c9_zero_write_noop_witness :
    (0 : Int) < 1 ∧
      compWriteData (zlibBackend StreamFormat.ZlibFormat 6 0xAA) 1
        (mkZlibAdapter freshDevice 1 0xAA) [] 0
        = some (0, mkZlibAdapter freshDevice 1 0xAA) :=
  ⟨by decide, c9_zero_write_noop ZlibSub (zlibBackend StreamFormat.ZlibFormat 6 0xAA) 1
    (mkZlibAdapter freshDevice 1 0xAA) [] 0 (by decide)⟩

/-- Claim C5 (amended): once the lifecycle state is Error, every subsequent
read returns -1 and every subsequent write with len at least 1 returns -1,
for any backend; a write with len below 1 still returns 0, because the
zero-length no-op check precedes the Error check. -/
theorem c5_error_absorbing (σ : Type) (B : Backend σ) (fuelR fuelW : Nat)
    (a : Adapter σ) (maxSize : Nat) (data : List UInt8) (len : Int)
    (herr : a.priv.state = CState.Error) :
    compReadData B fuelR a maxSize = some (-1, [], a) ∧
    (1 ≤ len → compWriteData B fuelW a data len = some (-1, a)) := by
  refine ⟨?_, fun hlen => ?_⟩
  · simp [compReadData, herr]
  · have : ¬ len < 1 := by omega
    simp [compWriteData, herr, this]

theorem c5_error_absorbing_witness :
    c5ErrAdapter.priv.state = CState.Error ∧ (1 : Int) ≤ 1 ∧
      compReadData (zlibBackend StreamFormat.ZlibFormat 6 0xAA) 1 c5ErrAdapter 4
        = some (-1, [], c5ErrAdapter) ∧
      compWriteData (zlibBackend StreamFormat.ZlibFormat 6 0xAA) 1 c5ErrAdapter [0x01] 1
        = some (-1, c5ErrAdapter) := by
  have h := c5_error_absorbing ZlibSub (zlibBackend StreamFormat.ZlibFormat 6 0xAA) 1 1
    c5ErrAdapter 4 [0x01] 1 (by decide)
  exact ⟨by decide, by decide, h.1, h.2 (by decide)⟩

/-- Claim C5 counterexample: in the Error state a write of length 0 returns
0, not -1 as the claim demands for every len. -/
theorem c5_counterexample :
    c5ErrAdapter.priv.state = CState.Error ∧
    compWriteData (zlibBackend StreamFormat.ZlibFormat 6 0xAA) 1 c5ErrAdapter [] 0
      = some (0, c5ErrAdapter) ∧ (0 : Int) ≠ -1 := by
  decide

/-- Claim C8 (amended): open returns false when the adapter is already open
and when the mode selects both of read and write or neither; on every
failure path the open flag is unchanged, so from a closed adapter every
failure leaves it closed, while the already-open path leaves it open. -/
theorem c8_open_failure (σ : Type) (B : Backend σ) (a : Adapter σ) (r w : Bool) :
    ((compOpen B a r w).1 = false → (compOpen B a r w).2.isOpen = a.isOpen) ∧
    (a.isOpen = true → (compOpen B a r w).1 = false) ∧
    ((r = true ∧ w = true) ∨ (r = false ∧ w = false) → (compOpen B a r w).1 = false) := by
  unfold compOpen compOpenInit
  rcases a with ⟨ao, amr, amw, p⟩
  cases ao
  · cases r <;> cases w <;>
      simp <;>
      (try split) <;>
      (try split) <;>
      (try split) <;>
      simp_all [deviceOpen]
  · simp

theorem c8_open_failure_witness :
    (c5ErrAdapter.isOpen = true) ∧
    (compOpen (zlibBackend StreamFormat.ZlibFormat 6 0xAA) c5ErrAdapter true false).1 = false ∧
    (compOpen (zlibBackend StreamFormat.ZlibFormat 6 0xAA) c5ErrAdapter true false).2.isOpen
      = c5ErrAdapter.isOpen := by
  have h := c8_open_failure ZlibSub (zlibBackend StreamFormat.ZlibFormat 6 0xAA)
    c5ErrAdapter true false
  exact ⟨by decide, h.2.1 (by decide), h.1 (h.2.1 (by decide))⟩

/-- Claim C8 counterexample: the already-open failure path returns false but
leaves the adapter open, not closed as the claim states. -/
theorem c8_counterexample :
    (compOpen (zlibBackend StreamFormat.ZlibFormat 6 0xAA) c5ErrAdapter true false).1 = false ∧
    ¬ (compOpen (zlibBackend StreamFormat.ZlibFormat 6 0xAA) c5ErrAdapter true false).2.isOpen
        = false := by
  decide

/-- Claim C6: in a build without the zstd library, opening an adapter
constructed with the zstd codec fails, leaves the adapter closed, records
the descriptive stub message, and the backend read / write stubs return -1
for every input without attempting any codec work. -/
theorem c6_zstd_stub (dev : Device) (bufSize level : Nat) (junk : UInt8)
    (hdev : dev.isOpen = false) (hof : dev.openFails = false) :
    (compOpen (zstdBackend false level junk) (mkZstdAdapter false dev bufSize) true false).1
      = false ∧
    (compOpen (zstdBackend false level junk) (mkZstdAdapter false dev bufSize) true false).2.isOpen
      = false ∧
    (compOpen (zstdBackend false level junk) (mkZstdAdapter false dev bufSize) true false).2.priv.errStr
      = "this build doesn't ship zstd support" ∧
    (∀ fuel p maxSize, zstdReadData false junk fuel p maxSize = some (-1, [], p)) ∧
    (∀ fuel p data hdr, zstdWriteData false hdr fuel p data = some (-1, p)) := by
  refine ⟨?_, ?_, ?_, fun fuel p maxSize => ?_, fun fuel p data hdr => ?_⟩ <;>
    simp [compOpen, compOpenInit, mkZstdAdapter, deviceOpen, zstdBackend, zstdInit,
          zstdReadData, zstdWriteData, hdev, hof]

theorem c6_zstd_stub_witness :
    freshDevice.isOpen = false ∧ freshDevice.openFails = false ∧
    (compOpen (zstdBackend false 3 0xAA) (mkZstdAdapter false freshDevice 4) true false).1
      = false ∧
    (compOpen (zstdBackend false 3 0xAA) (mkZstdAdapter false freshDevice 4) true false).2.priv.errStr
      = "this build doesn't ship zstd support" ∧
    zstdReadData false (0xAA : UInt8) 1
      (mkZstdAdapter false freshDevice 4).priv 7
      = some (-1, [], (mkZstdAdapter false freshDevice 4).priv) := by
  have h := c6_zstd_stub freshDevice 4 3 0xAA (by decide) (by decide)
  exact ⟨by decide, by decide, h.1, h.2.2.1, h.2.2.2.1 1 _ 7⟩

/-- Claim C2 (refuted on the deflate backend, code bug): reading the frame to
its end returns the decoded byte correctly, but the unget loop of
QtIOCompressorZlibPrivate::readData runs from i = avail_in down to 0
inclusive, pushing back avail_in + 1 bytes: the one unconsumed byte 0x42
plus a stale scratch-buffer byte (here the uninitialised fill 0xAA), so the
endpoint is left with [0x42, 0xAA] instead of exactly [0x42]. -/
theorem c2_pushback_extra_byte :
    ((compReadData (zlibBackend StreamFormat.ZlibFormat 6 0xAA) 10
        (compOpen (zlibBackend StreamFormat.ZlibFormat 6 0xAA)
          (mkZlibAdapter c2Device 16 0xAA) true false).2 2).map
      (fun r => (r.1, r.2.1, r.2.2.priv.dev.toRead, r.2.2.priv.state)))
      = some (1, [0x01], [0x42, 0xAA], CState.EndOfStream) ∧
    [(0x42 : UInt8), 0xAA] ≠ [0x42] := by
  decide

/-- Claim C3 (refuted on the zstd backend, code bug): on a fatal decode error
QtIOCompressorZstdPrivate::readData returns -1 and records the error string,
but unlike the zlib backend (and unlike its own writeData) it never sets the
lifecycle state to Error: the state stays InStream. -/
theorem c3_zstd_error_state_not_set :
    ((compReadData (zstdBackend true 3 0xAA) 10
        (compOpen (zstdBackend true 3 0xAA)
          (mkZstdAdapter true c3Device 4) true false).2 4).map
      (fun r => (r.1, r.2.2.priv.state, r.2.2.priv.errStr)))
      = some (-1, CState.InStream, "Internal zstd error when decompressing: ") ∧
    CState.InStream ≠ CState.Error := by
  decide

/-- Any result of the zlib writeData loop is -1 or the full maxSize. -/
theorem zlibWriteLoop_ret (hdr : List UInt8) :
    ∀ fuel (p : Priv ZlibSub) input maxSize r p2,
      zlibWriteLoop hdr fuel p input maxSize = some (r, p2) →
      r = -1 ∨ r = (maxSize : Int) := by
  intro fuel
  induction fuel with
  | zero => intro p input maxSize r p2 h; exact absurd h (by simp [zlibWriteLoop])
  | succ n ih =>
      intro p input maxSize r p2 h
      simp only [zlibWriteLoop] at h
      rcases hd : deflateStep hdr p.sub.enc input p.bufSize FlushMode.noFlush with ⟨enc2, out, status⟩
      rw [hd] at h
      simp only at h
      split at h
      · simp only [Option.some.injEq, Prod.mk.injEq] at h
        exact Or.inl h.1.symm
      · split at h
        · simp only [Option.some.injEq, Prod.mk.injEq] at h
          exact Or.inl h.1.symm
        · split at h
          · exact ih _ _ _ _ _ h
          · simp only [Option.some.injEq, Prod.mk.injEq] at h
            exact Or.inr h.1.symm

/-- Any result of the zstd writeData loop is -1 or the full maxSize. -/
theorem zstdWriteLoop_ret (hdr : List UInt8) :
    ∀ fuel (p : Priv ZstdSub) input maxSize r p2,
      zstdWriteLoop hdr fuel p input maxSize = some (r, p2) →
      r = -1 ∨ r = (maxSize : Int) := by
  intro fuel
  cases fuel with
  | zero => intro p input maxSize r p2 h; exact absurd h (by simp [zstdWriteLoop])
  | succ n =>
      intro p input maxSize r p2 h
      simp only [zstdWriteLoop] at h
      rcases hd : zstdCompressStep hdr p.sub.enc input p.bufSize FlushMode.noFlush
        with ⟨enc2, out, status⟩
      rw [hd] at h
      simp only at h
      split at h
      · simp only [Option.some.injEq, Prod.mk.injEq] at h
        exact Or.inl h.1.symm
      · simp only [Option.some.injEq, Prod.mk.injEq] at h
        exact Or.inr h.1.symm

/-- Claim C10: writes are all-or-nothing at the adapter surface. For every
open write session and len at least 1 matching the supplied data, a write
that does not return -1 returns exactly len, for both the deflate and the
frame-streaming backend. -/
theorem c10_write_all_or_nothing (fmt : StreamFormat) (level : Nat) (junk : UInt8)
    (withZstd : Bool) :
    (∀ fuel (a : Adapter ZlibSub) data (len : Int) r a2,
      1 ≤ len → len = (data.length : Int) →
      compWriteData (zlibBackend fmt level junk) fuel a data len = some (r, a2) →
      r = -1 ∨ r = len) ∧
    (∀ fuel (a : Adapter ZstdSub) data (len : Int) r a2,
      1 ≤ len → len = (data.length : Int) →
      compWriteData (zstdBackend withZstd level junk) fuel a data len = some (r, a2) →
      r = -1 ∨ r = len) := by
  constructor
  · intro fuel a data len r a2 hlen hdl h
    have hnl : ¬ len < 1 := by omega
    have htake : data.take len.toNat = data := by
      apply List.take_of_length_le
      omega
    simp only [compWriteData, hnl, if_false] at h
    split at h
    · simp only [Option.some.injEq, Prod.mk.injEq] at h
      exact Or.inl h.1.symm
    · simp only [zlibBackend, zlibWriteData, htake, Option.map_eq_some'] at h
      rcases h with ⟨⟨r1, p1⟩, hw, heq⟩
      simp only [Prod.mk.injEq] at heq
      rcases zlibWriteLoop_ret (zlibHdr fmt level) fuel a.priv data data.length r1 p1 hw with h1 | h1
      · exact Or.inl (heq.1 ▸ h1)
      · exact Or.inr (hdl ▸ heq.1 ▸ h1)
  · intro fuel a data len r a2 hlen hdl h
    have hnl : ¬ len < 1 := by omega
    have htake : data.take len.toNat = data := by
      apply List.take_of_length_le
      omega
    simp only [compWriteData, hnl, if_false] at h
    split at h
    · simp only [Option.some.injEq, Prod.mk.injEq] at h
      exact Or.inl h.1.symm
    · simp only [zstdBackend, zstdWriteData] at h
      split at h
      · simp only [htake, Option.map_eq_some'] at h
        rcases h with ⟨⟨r1, p1⟩, hw, heq⟩
        simp only [Prod.mk.injEq] at heq
        rcases zstdWriteLoop_ret (zstdHdr level) fuel a.priv data data.length r1 p1 hw with h1 | h1
        · exact Or.inl (heq.1 ▸ h1)
        · exact Or.inr (hdl ▸ heq.1 ▸ h1)
      · simp only [Option.map_eq_some'] at h
        rcases h with ⟨⟨r1, p1⟩, hw, heq⟩
        simp only [Option.some.injEq, Prod.mk.injEq] at hw
        simp only [Prod.mk.injEq] at heq
        exact Or.inl (heq.1 ▸ hw.1.symm)

theorem c10_write_all_or_nothing_witness :
    (1 : Int) ≤ 1 ∧ (1 : Int) = (([(0x01 : UInt8)] : List UInt8).length : Int) ∧
    ((c10res.getD (0, c10aW)).1 = -1 ∨ (c10res.getD (0, c10aW)).1 = 1) := by
  have h : compWriteData (zlibBackend StreamFormat.ZlibFormat 6 0xAA) 2 c10aW [0x01] 1
      = some ((c10res.getD (0, c10aW)).1, (c10res.getD (0, c10aW)).2) := by decide
  exact ⟨by decide, by decide,
    (c10_write_all_or_nothing StreamFormat.ZlibFormat 6 0xAA true).1 2 c10aW [0x01] 1 _ _
      (by decide) (by decide) h⟩

/-- writeBytes only appends to the device's written bytes: it never closes
the device nor changes its management flag. -/
theorem writeBytes_pres (σ : Type) (p : Priv σ) (bs : List UInt8) :
    (writeBytes p bs).2.dev.isOpen = p.dev.isOpen ∧
    (writeBytes p bs).2.manageDevice = p.manageDevice := by
  simp only [writeBytes, deviceWrite]
  split_ifs <;> simp_all

/-- The flush loop never closes the device nor changes its management flag. -/
theorem zlibFlushLoop_pres (hdr : List UInt8) (mode : FlushMode) :
    ∀ fuel (p p2 : Priv ZlibSub), zlibFlushLoop hdr mode fuel p = some p2 →
      p2.dev.isOpen = p.dev.isOpen ∧ p2.manageDevice = p.manageDevice := by
  intro fuel
  induction fuel with
  | zero => intro p p2 h; exact absurd h (by simp [zlibFlushLoop])
  | succ n ih =>
      intro p p2 h
      simp only [zlibFlushLoop] at h
      rcases hd : deflateStep hdr p.sub.enc [] p.bufSize mode with ⟨enc2, out, status⟩
      rw [hd] at h
      simp only at h
      split at h
      · simp only [Option.some.injEq] at h
        subst h; exact ⟨rfl, rfl⟩
      · have hw := writeBytes_pres ZlibSub { p with sub := { p.sub with enc := enc2 } } out
        split at h
        · simp only [Option.some.injEq] at h
          subst h; exact hw
        · split at h
          · have h2 := ih _ _ h
            exact ⟨h2.1.trans hw.1, h2.2.trans hw.2⟩
          · simp only [Option.some.injEq] at h
            subst h; exact hw

/-- zlib finalize never closes the device nor changes its management flag. -/
theorem zlibFinalize_pres (hdr : List UInt8) :
    ∀ fuel (p : Priv ZlibSub) (r : Bool) p2, zlibFinalize hdr fuel p r = some p2 →
      p2.dev.isOpen = p.dev.isOpen ∧ p2.manageDevice = p.manageDevice := by
  intro fuel p r p2 h
  simp only [zlibFinalize] at h
  split at h
  · simp only [Option.some.injEq] at h; subst h; exact ⟨rfl, rfl⟩
  · split at h
    · have h2 := zlibFlushLoop_pres hdr FlushMode.finish fuel _ _ h
      exact ⟨h2.1, h2.2⟩
    · simp only [Option.some.injEq] at h; subst h; exact ⟨rfl, rfl⟩

/-- Claim C7: close is idempotent. Closing an already-closed adapter is a
no-op that never fails, so a second close returns the same state; and when
the adapter did not open the endpoint itself (manageDevice false), close
leaves the endpoint open state untouched, provided the backend finalize
preserves it (both concrete backends do). -/
theorem c7_close_idempotent (σ : Type) (B : Backend σ) (f1 f2 : Nat) (a a1 : Adapter σ)
    (hfin : ∀ fu p r p2, B.finalize fu p r = some p2 →
      p2.dev.isOpen = p.dev.isOpen ∧ p2.manageDevice = p.manageDevice)
    (hclose : compClose B f1 a = some a1) :
    compClose B f2 a1 = some a1 ∧
    (a.priv.manageDevice = false → a1.priv.dev.isOpen = a.priv.dev.isOpen) := by
  by_cases ho : a.isOpen
  · rw [compClose, if_neg (by simp [ho])] at hclose
    rcases hm : B.finalize f1 a.priv a.modeRead with _ | p1
    · rw [hm] at hclose; exact absurd hclose (by simp)
    · rw [hm] at hclose
      simp only [Option.map_some', Option.some.injEq] at hclose
      have hp := hfin f1 a.priv a.modeRead p1 hm
      subst hclose
      constructor
      · simp [compClose]
      · intro hmd
        have hm2 : p1.manageDevice = false := hp.2.trans hmd
        simp [hm2, hp.1]
  · have hof : a.isOpen = false := by simpa using ho
    simp [compClose, hof] at hclose
    subst hclose
    exact ⟨by simp [compClose, hof], fun _ => rfl⟩

theorem c7_close_idempotent_witness :
    compClose c7bk 1 c7aW = some c7a1 ∧
    compClose c7bk 2 c7a1 = some c7a1 ∧
    (c7aW.priv.manageDevice = false → c7a1.priv.dev.isOpen = c7aW.priv.dev.isOpen) := by
  have h : compClose c7bk 1 c7aW = some c7a1 := by decide
  have hfin : ∀ fu p r p2, c7bk.finalize fu p r = some p2 →
      p2.dev.isOpen = p.dev.isOpen ∧ p2.manageDevice = p.manageDevice :=
    fun fu p r p2 hh => zlibFinalize_pres (zlibHdr StreamFormat.ZlibFormat 6) fu p r p2 hh
  have hc := c7_close_idempotent ZlibSub c7bk 1 2 c7aW c7a1 hfin h
  exact ⟨h, hc.1, hc.2⟩

/-- Helper for the zstd starvation theorem: the readData loop at the stuck
configuration returns none at every fuel. -/
theorem zstdReadLoop_starved (junk : UInt8) :
    ∀ fuel (p : Priv ZstdSub) maxSize outPos outAcc,
      p.state = CState.InStream → p.dev.toRead = [] → p.sub.size ≤ p.sub.pos →
      outPos < maxSize →
      zstdReadLoop junk fuel p maxSize outPos outAcc = none := by
  intro fuel
  induction fuel with
  | zero => intro p maxSize outPos outAcc _ _ _ _; rfl
  | succ n ih =>
      intro p maxSize outPos outAcc hst hdev hsz hout
      rcases p with ⟨st, es, md, bs, buf, dev, ⟨enc, dec, pos, size⟩⟩
      simp only at hst hdev hsz
      subst hst
      simp only [zstdReadLoop, zstdRefill, zstdDecompressCall, hdev, hsz]
      simp [deviceRead, hdev, hout]
      exact ih _ maxSize outPos outAcc rfl (by simp [hdev]) (by simp) hout

/-- Claim C4 (refuted on the zstd backend, code bug): when mid-stream and the
endpoint currently has no bytes, the zstd readData never returns: every
refill yields 0 bytes, every ZSTD_decompressStream call makes no progress
and returns a nonzero hint, and the loop condition never breaks, for any
fuel bound, instead of returning 0 with the state unchanged as the
specification requires (the zlib backend does return 0 via Z_BUF_ERROR). -/
theorem c4_zstd_read_never_returns (junk : UInt8) (fuel : Nat) (p : Priv ZstdSub)
    (maxSize : Nat) (hst : p.state = CState.InStream) (hdev : p.dev.toRead = [])
    (hsz : p.sub.size ≤ p.sub.pos) (hms : 1 ≤ maxSize) :
    zstdReadData true junk fuel p maxSize = none := by
  simp only [zstdReadData, if_pos rfl]
  exact zstdReadLoop_starved junk fuel p maxSize 0 [] hst hdev hsz hms

theorem c4_zstd_read_never_returns_witness :
    c4Stuck.state = CState.InStream ∧ c4Stuck.dev.toRead = [] ∧
    c4Stuck.sub.size ≤ c4Stuck.sub.pos ∧ 1 ≤ 4 ∧
    zstdReadData true 0xAA 6 c4Stuck 4 = none :=
  ⟨by decide, by decide, by decide, by decide,
    c4_zstd_read_never_returns 0xAA 6 c4Stuck 4 (by decide) (by decide) (by decide) (by decide)⟩
